import Mathlib

/-!
# terminal_river

A shallow embedding of `src/main.c`, the terminal viewer that scrolls a
viewport over a procedurally generated 100 x 100 tile field.

Conventions of the embedding.

* The global `player_position` holds C `int` values, integers in
  `[INT_MIN, INT_MAX]`; its increments and decrements in `handle_input` wrap
  around in two's complement (`wrap_int`), as the compiled program does where
  C leaves signed overflow undefined.  The coordinate arithmetic of `render`
  is carried out on mathematical integers (`Int`).  Loop counters and sizes
  that are never negative (`row`, `column`, `rows`, `columns`,
  `print_buffered`, the indices of `build_map`) are `Nat`.
* Bytes (`char`) are natural numbers below 256.
* An array is a function from indices to contents.  Reads of `tiles` and of
  `tile_colors` are bounds checked and return `Option`.
* The standard output is the list of chunks handed to `write(2)`, oldest
  first; every `write` is taken to deliver all its bytes.  The state also
  carries a history of the bytes passed to `print_char`, which no function
  reads.
* `double` arithmetic in `build_map` is exact arithmetic in a linear ordered
  field, and `sin` of libm is a parameter; the theorems instantiate the field
  with the reals and the parameter with `Real.sin`.
-/

namespace TerminalRiver

/-! ## Constants and the data model -/

/-- Width of the world grid: `#define TILES_WIDTH 100`. -/
def TILES_WIDTH : Nat := 100

/-- Height of the world grid: `#define TILES_HEIGHT 100`. -/
def TILES_HEIGHT : Nat := 100

/-- ANSI background colour: `#define BLACK_BACKGROUND 40`. -/
def BLACK_BACKGROUND : Int := 40

/-- ANSI background colour: `#define GREEN_BACKGROUND 42`. -/
def GREEN_BACKGROUND : Int := 42

/-- ANSI background colour: `#define CYAN_BACKGROUND 46`. -/
def CYAN_BACKGROUND : Int := 46

/-- Exit status of a graceful quit: `EXIT_SUCCESS`. -/
def EXIT_SUCCESS : Int := 0

/-- The enumeration `Tile` of the source. -/
inductive Tile where
  | EMPTY
  | GRASS
  | WATER
  deriving DecidableEq, Repr

/-- Integer value of an enumerator: `EMPTY = 0`, `GRASS = 1`, `WATER = 2`. -/
def Tile.toNat : Tile → Nat
  | .EMPTY => 0
  | .GRASS => 1
  | .WATER => 2

/-- The table `static int tile_colors[]`. -/
def tile_colors : List Int :=
  [BLACK_BACKGROUND, GREEN_BACKGROUND, CYAN_BACKGROUND]

/-- The array `static Tile tiles[TILES_HEIGHT][TILES_WIDTH]`, as its contents
at `tiles[y][x]`. -/
abbrev Grid := Nat → Nat → Tile

/-- The assignment `tiles[i][j] = t`. -/
def Grid.set (tiles : Grid) (i j : Nat) (t : Tile) : Grid :=
  fun y x => if y = i ∧ x = j then t else tiles y x

/-- The read `tiles[y][x]`, defined only for indices inside the array. -/
def tiles_read (tiles : Grid) (y x : Int) : Option Tile :=
  if 0 ≤ y ∧ y < (TILES_HEIGHT : Int) ∧ 0 ≤ x ∧ x < (TILES_WIDTH : Int) then
    some (tiles y.toNat x.toNat)
  else
    none

/-- Capacity of the print buffer: `sizeof(print_buffer)` with
`static char print_buffer[1 << 14]`. -/
def PRINT_BUFFER_SIZE : Nat := 1 <<< 14

/-- The output side of the program state: the globals `print_buffer` and
`print_buffered`, and the chunks written to standard output so far. -/
structure Stdout where
  /-- Holds `static char print_buffer[1 << 14]`. -/
  print_buffer : Nat → Nat
  /-- Holds `static int print_buffered`. -/
  print_buffered : Nat
  /-- The chunks passed to `write(STDOUT_FILENO, ..)`, oldest first. -/
  written : List (List Nat)
  /-- History variable, not program state: every byte passed to `print_char`
  so far, in call order. -/
  printed : List Nat

/-- The bytes currently held in the buffer: `print_buffer[0 .. print_buffered)`. -/
def Stdout.buffered (s : Stdout) : List Nat :=
  (List.range s.print_buffered).map s.print_buffer

/-- All bytes delivered to the terminal so far, in order. -/
def Stdout.delivered (s : Stdout) : List Nat :=
  s.written.flatten

/-- The state at program start: zero-initialised globals, nothing written. -/
def Stdout.initial : Stdout :=
  { print_buffer := fun _ => 0, print_buffered := 0, written := [], printed := [] }

/-! ## The buffered writer -/

/-- The call `write(STDOUT_FILENO, bytes, n)`, delivering all `n` bytes. -/
def write (s : Stdout) (bytes : List Nat) : Stdout :=
  { s with written := s.written ++ [bytes] }

/-- The function `flush` of the source. -/
def flush (s : Stdout) : Stdout :=
  if s.print_buffered > 0 then
    { write s s.buffered with print_buffered := 0 }
  else
    s

/-- The function `print_char` of the source; the call is recorded in the
history `printed`. -/
def print_char (s : Stdout) (c : Nat) : Stdout :=
  let s := if s.print_buffered = PRINT_BUFFER_SIZE then flush s else s
  { s with
    print_buffer := Function.update s.print_buffer s.print_buffered c
    print_buffered := s.print_buffered + 1
    printed := s.printed ++ [c] }

/-- The function `print_string` of the source; `str` is the string without its
terminating NUL. -/
def print_string (s : Stdout) (str : List Nat) : Stdout :=
  str.foldl print_char s

/-- The `do .. while (n > 0)` loop of `print_int`: returns the scratch array
and the value of `start` when the loop exits. -/
def print_int_loop (storage : Int → Nat) (start n : Int) : (Int → Nat) × Int :=
  let storage1 := Function.update storage start (n.tmod 10 + 48).toNat
  if 0 < n.tdiv 10 then
    print_int_loop storage1 (start - 1) (n.tdiv 10)
  else
    (storage1, start - 1)
termination_by n.toNat
decreasing_by
  rename_i h
  rcases lt_or_le 0 n with h0 | h0
  · rw [Int.tdiv_eq_ediv (le_of_lt h0) (by decide)] at *
    omega
  · exfalso
    obtain ⟨m, rfl⟩ := Int.exists_eq_neg_ofNat h0
    rw [Int.neg_tdiv] at h
    have := Int.tdiv_nonneg (Int.ofNat_nonneg m) (by decide : (0 : Int) ≤ 10)
    omega

/-- The function `print_int` of the source: the scratch array `storage[32]`
is zero-initialised, `end = 32`, `start = 31`. -/
def print_int (s : Stdout) (n : Int) : Stdout :=
  let r := print_int_loop (fun _ => 0) 31 n
  (List.range ((32 : Int) - r.2).toNat).foldl
    (fun s k => print_char s (r.1 (r.2 + (k : Int)))) s

/-- The function `cursor_to_top_left` of the source: an unbuffered write. -/
def cursor_to_top_left (s : Stdout) : Stdout :=
  write s [0x1B, 91, 72]

/-- The function `clear_screen` of the source: an unbuffered write. -/
def clear_screen (s : Stdout) : Stdout :=
  write s [0x1B, 91, 50, 74]

/-- One call on the buffered writer, as issued by a client of `print_char`
and `flush`. -/
inductive BufferCall where
  | print_char (c : Nat)
  | flush
  deriving DecidableEq, Repr

/-- Executes one call on the buffered writer. -/
def BufferCall.run (s : Stdout) : BufferCall → Stdout
  | .print_char c => TerminalRiver.print_char s c
  | .flush => TerminalRiver.flush s

/-- Executes a sequence of calls, first call first. -/
def run_calls (s : Stdout) (calls : List BufferCall) : Stdout :=
  calls.foldl BufferCall.run s

/-- The bytes passed to `print_char` by a sequence of calls, in call order. -/
def appended : List BufferCall → List Nat
  | [] => []
  | .print_char c :: calls => c :: appended calls
  | .flush :: calls => appended calls

/-! ## The world grid -/

/-- The function `build_map` of the source.  The test
`fabs(i - j + sin((i + j) / 5) * 5) < 5` subtracts and divides in `int`
(so `(i + j) / 5` is the truncated quotient) before converting to `double`;
`sin` is the sine of libm. -/
def build_map {α : Type} [LinearOrderedField α] (sin : α → α) (tiles : Grid) : Grid :=
  (List.range TILES_HEIGHT).foldl
    (fun (tiles : Grid) (i : Nat) =>
      (List.range TILES_WIDTH).foldl
        (fun (tiles : Grid) (j : Nat) =>
          if |(((i : Int) - (j : Int) : Int) : α) + sin (((i + j) / 5 : Nat) : α) * 5| < 5 then
            tiles.set i j Tile.WATER
          else
            tiles.set i j Tile.GRASS)
        tiles)
    tiles

/-! ## Input -/

/-- What a call of `handle_input` leaves behind: either the loop of `main`
goes on with the global `player_position`, or `exit(status)` was called with
`player_position` as it was at that moment. -/
inductive Session where
  | running (player_position : Int × Int)
  | exited (status : Int) (player_position : Int × Int)
  deriving DecidableEq, Repr

/-- Largest value of a C `int` (32 bits). -/
def INT_MAX : Int := 2147483647

/-- Smallest value of a C `int` (32 bits). -/
def INT_MIN : Int := -2147483648

/-- The value an `int` variable holds after an increment or decrement whose
exact result is `v`: `v` itself inside `[INT_MIN, INT_MAX]`, and `v` reduced
modulo `2 ^ 32` into that range outside it. -/
def wrap_int (v : Int) : Int :=
  (v + 2147483648) % 4294967296 - 2147483648

/-- The function `handle_input` of the source, applied to the byte `key`
returned by `read_key`; `player_position` is `(player_position[0],
player_position[1])`, two `int` variables.  The keys are `w` = 119,
`s` = 115, `a` = 97, `d` = 100, `q` = 113. -/
def handle_input (key : Nat) (player_position : Int × Int) : Session :=
  if key = 119 then
    .running (player_position.1, wrap_int (player_position.2 + 1))
  else if key = 115 then
    .running (player_position.1, wrap_int (player_position.2 - 1))
  else if key = 97 then
    .running (wrap_int (player_position.1 - 1), player_position.2)
  else if key = 100 then
    .running (wrap_int (player_position.1 + 1), player_position.2)
  else if key = 113 then
    .exited EXIT_SUCCESS player_position
  else
    .running player_position

/-! ## Session start-up and termination -/

/-- A function registered with `atexit`. -/
inductive ExitHandler where
  | disable_raw_mode
  | show_cursor
  deriving DecidableEq, Repr

/-- What the process does to the terminal session, as far as start-up and
termination go. -/
inductive Action where
  /-- The call `tcsetattr(STDIN_FILENO, TCSAFLUSH, &raw)`. -/
  | set_raw_mode
  /-- The call `tcsetattr(STDIN_FILENO, TCSAFLUSH, &original)`. -/
  | restore_mode
  /-- An unbuffered `write` of the given bytes to standard output. -/
  | write_stdout (bytes : List Nat)
  /-- The process ends with the given status. -/
  | process_exit (status : Int)
  deriving DecidableEq, Repr

/-- The session side of the process state: the functions registered with
`atexit`, first registered first, and the actions performed so far, oldest
first. -/
structure Process where
  /-- The functions registered with `atexit`, first registered first. -/
  handlers : List ExitHandler
  /-- The actions performed so far, oldest first. -/
  actions : List Action

/-- The process when `main` is entered. -/
def Process.initial : Process :=
  { handlers := [], actions := [] }

/-- The library call `atexit(handler)`. -/
def atexit (p : Process) (handler : ExitHandler) : Process :=
  { p with handlers := p.handlers ++ [handler] }

/-- The function `disable_raw_mode` of the source, `tcsetattr` succeeding. -/
def disable_raw_mode (p : Process) : Process :=
  { p with actions := p.actions ++ [Action.restore_mode] }

/-- The function `enable_raw_mode` of the source, `tcgetattr` and `tcsetattr`
succeeding. -/
def enable_raw_mode (p : Process) : Process :=
  let p := atexit p ExitHandler.disable_raw_mode
  { p with actions := p.actions ++ [Action.set_raw_mode] }

/-- The function `hide_cursor` of the source: writes `ESC [ ? 2 5 l`. -/
def hide_cursor (p : Process) : Process :=
  { p with actions := p.actions ++ [Action.write_stdout [0x1B, 91, 63, 50, 53, 108]] }

/-- The function `show_cursor` of the source: writes `ESC [ ? 2 5 h`. -/
def show_cursor (p : Process) : Process :=
  { p with actions := p.actions ++ [Action.write_stdout [0x1B, 91, 63, 50, 53, 104]] }

/-- Calls a registered function. -/
def ExitHandler.run (p : Process) : ExitHandler → Process
  | .disable_raw_mode => TerminalRiver.disable_raw_mode p
  | .show_cursor => TerminalRiver.show_cursor p

/-- The library call `exit(status)`: the registered functions are called in
the reverse order of their registration, then the process ends. -/
def exit (p : Process) (status : Int) : Process :=
  let p := p.handlers.reverse.foldl ExitHandler.run p
  { p with actions := p.actions ++ [Action.process_exit status] }

/-- The statements of `main` before its loop that concern the session:
`enable_raw_mode(); hide_cursor(); atexit(show_cursor);`. -/
def main_startup (p : Process) : Process :=
  atexit (hide_cursor (enable_raw_mode p)) ExitHandler.show_cursor

/-- The call `handle_input()` in the loop of `main`, seen from the session:
a key that makes `handle_input` call `exit` ends the process. -/
def main_handle_input (p : Process) (key : Nat) (player_position : Int × Int) : Process :=
  match handle_input key player_position with
  | .running _ => p
  | .exited status _ => exit p status

/-! ## Rendering -/

/-- The world coordinate `(position[0], position[1])` that `render` computes
for the screen cell `(row, column)`. -/
def cell_position (player_position : Int × Int) (rows columns row column : Nat) :
    Int × Int :=
  ((column : Int) - ((columns / 2 : Nat) : Int) + ((TILES_HEIGHT / 2 : Nat) : Int)
      + player_position.1,
   (row : Int) - ((rows / 2 : Nat) : Int) + ((TILES_WIDTH / 2 : Nat) : Int)
      - player_position.2)

/-- The glyph `c` that `render` chooses for the screen cell `(row, column)`:
`P` = 80 at the centre, a space = 32 elsewhere. -/
def cell_glyph (rows columns row column : Nat) : Nat :=
  if row = rows / 2 ∧ column = columns / 2 then 80 else 32

/-- The value of `color` that `render` computes for a cell at world
coordinate `position`; `none` if a read falls outside its array. -/
def cell_color (tiles : Grid) (position : Int × Int) : Option Int :=
  if 0 ≤ position.1 ∧ position.1 < (TILES_WIDTH : Int) then
    if 0 ≤ position.2 ∧ position.2 < (TILES_HEIGHT : Int) then
      (tiles_read tiles position.2 position.1).bind fun tile =>
        tile_colors[tile.toNat]?
    else
      tile_colors[Tile.EMPTY.toNat]?
  else
    tile_colors[Tile.EMPTY.toNat]?

/-- The statements `print_char(0x1B); print_char('['); print_int(color);
print_char('m');` of `render`. -/
def print_color (s : Stdout) (color : Int) : Stdout :=
  print_char (print_int (print_char (print_char s 0x1B) 91) color) 109

/-- The body of the inner loop of `render` for the screen cell
`(row, column)`.  The local `last_color` is passed in; the body does not
assign to it. -/
def render_cell (tiles : Grid) (player_position : Int × Int) (rows columns : Nat)
    (last_color : Int) (row column : Nat) (s : Stdout) : Option Stdout :=
  let position := cell_position player_position rows columns row column
  let c := cell_glyph rows columns row column
  (cell_color tiles position).map fun color =>
    let s := if color ≠ last_color then print_color s color else s
    print_char s c

/-- The function `render` of the source; `rows` and `columns` are what
`get_window_size` stores (the `unsigned short` fields of `struct winsize`). -/
def render (tiles : Grid) (player_position : Int × Int) (rows columns : Nat)
    (s : Stdout) : Option Stdout :=
  let s := print_string s [0x1B, 91, 50, 74]
  let s := cursor_to_top_left s
  let last_color : Int := -1
  ((List.range rows).foldlM
    (fun s row =>
      (List.range columns).foldlM
        (fun s column =>
          render_cell tiles player_position rows columns last_color row column s)
        s)
    s).map flush

/-! ## Derived notions used to state the properties -/

/-- Every byte appended so far that has not been lost: what was delivered,
followed by what the buffer still holds. -/
def Stdout.stream (s : Stdout) : List Nat :=
  s.delivered ++ s.buffered

/-- The entry of `tile_colors` for a tile. -/
def tile_color : Tile → Int
  | .EMPTY => BLACK_BACKGROUND
  | .GRASS => GREEN_BACKGROUND
  | .WATER => CYAN_BACKGROUND

/-- The bytes that `print_int n` passes to `print_char`, in order. -/
def print_int_bytes (n : Int) : List Nat :=
  let r := print_int_loop (fun _ => 0) 31 n
  (List.range ((32 : Int) - r.2).toNat).map fun k => r.1 (r.2 + (k : Int))

/-- The tile under a cell at world coordinate `position`: the grid entry
inside the world, `EMPTY` outside. -/
def cell_tile (tiles : Grid) (position : Int × Int) : Tile :=
  if 0 ≤ position.1 ∧ position.1 < (TILES_WIDTH : Int) ∧
      0 ≤ position.2 ∧ position.2 < (TILES_HEIGHT : Int) then
    tiles position.2.toNat position.1.toNat
  else
    Tile.EMPTY

/-- The bytes `render` appends for the screen cell `(row, column)`: the
colour-set sequence as `print_color` emits it, then the glyph. -/
def cell_bytes (tiles : Grid) (player_position : Int × Int) (rows columns row column : Nat) :
    List Nat :=
  [0x1B, 91] ++
    print_int_bytes
      (tile_color (cell_tile tiles (cell_position player_position rows columns row column))) ++
    [109, cell_glyph rows columns row column]

/-- The bytes of all screen cells of a frame, in row-major order. -/
def frame_cells (tiles : Grid) (player_position : Int × Int) (rows columns : Nat) : List Nat :=
  (List.range rows).flatMap fun row =>
    (List.range columns).flatMap fun column =>
      cell_bytes tiles player_position rows columns row column

/-- State of a terminal reading its input: plain text, after ESC, or inside a
control sequence `ESC [ ..` that waits for its final byte. -/
inductive Scan where
  | ground
  | escape
  | csi
  deriving DecidableEq, Repr

/-- Number of colour-set sequences completed in a byte stream read from the
given state.  A control sequence is `ESC [`, any bytes outside `0x40 .. 0x7E`,
and one final byte in `0x40 .. 0x7E`; it sets the colour when the final byte
is `m` = 109. -/
def count_color_sets_from : Scan → List Nat → Nat
  | _, [] => 0
  | .ground, b :: bs =>
    if b = 0x1B then count_color_sets_from .escape bs else count_color_sets_from .ground bs
  | .escape, b :: bs =>
    if b = 91 then count_color_sets_from .csi bs
    else if b = 0x1B then count_color_sets_from .escape bs
    else count_color_sets_from .ground bs
  | .csi, b :: bs =>
    if 0x40 ≤ b ∧ b ≤ 0x7E then
      (if b = 109 then 1 else 0) + count_color_sets_from .ground bs
    else if b = 0x1B then count_color_sets_from .escape bs
    else count_color_sets_from .csi bs

/-- Number of colour-set sequences in a byte stream. -/
def count_color_sets (bytes : List Nat) : Nat :=
  count_color_sets_from .ground bytes

/-- Number of positions of a colour sequence whose colour differs from the
one before it, `last` standing before the first. -/
def color_changes (last : Int) : List Int → Nat
  | [] => 0
  | c :: cs => (if c ≠ last then 1 else 0) + color_changes c cs

/-- The colours of the screen cells of a frame, in row-major order. -/
def frame_colors (tiles : Grid) (player_position : Int × Int) (rows columns : Nat) :
    List (Option Int) :=
  (List.range rows).flatMap fun row =>
    (List.range columns).map fun column =>
      cell_color tiles (cell_position player_position rows columns row column)

/-- A state whose buffer is full of the byte `A` = 65. -/
def Stdout.full : Stdout :=
  { print_buffer := fun _ => 65, print_buffered := 16384, written := [], printed := [] }

/-- The index of the store `print_buffer[print_buffered] = c` in
`print_char`: the value of `print_buffered` after the conditional flush. -/
def print_char_index (s : Stdout) : Nat :=
  (if s.print_buffered = PRINT_BUFFER_SIZE then flush s else s).print_buffered

end TerminalRiver

/-! ## The buffered writer: basic facts -/

namespace TerminalRiver

theorem flush_print_buffered (s : Stdout) : (flush s).print_buffered = 0 := by
  unfold flush
  split
  · rfl
  · omega

theorem flush_buffered (s : Stdout) : (flush s).buffered = [] := by
  simp [Stdout.buffered, flush_print_buffered]

theorem flush_delivered (s : Stdout) : (flush s).delivered = s.stream := by
  unfold flush Stdout.stream
  split
  · simp [Stdout.delivered, write]
  · rename_i h
    have h0 : s.print_buffered = 0 := by omega
    simp [Stdout.buffered, h0]

theorem flush_stream (s : Stdout) : (flush s).stream = s.stream := by
  rw [Stdout.stream, flush_buffered, flush_delivered, List.append_nil]

theorem buffered_store (f : Nat → Nat) (k c : Nat) :
    (List.range (k + 1)).map (Function.update f k c) = (List.range k).map f ++ [c] := by
  rw [List.range_succ, List.map_append]
  congr 1
  · apply List.map_congr_left
    intro i hi
    have : i ≠ k := by
      have := List.mem_range.mp hi
      omega
    simp [Function.update, this]
  · simp

theorem print_char_stream (s : Stdout) (c : Nat) :
    (print_char s c).stream = s.stream ++ [c] := by
  unfold print_char
  by_cases h : s.print_buffered = PRINT_BUFFER_SIZE
  · simp only [h, if_true]
    rw [← flush_stream s]
    simp only [Stdout.stream, Stdout.buffered, Stdout.delivered, buffered_store,
      List.append_assoc]
  · simp only [h, if_false]
    simp only [Stdout.stream, Stdout.buffered, Stdout.delivered, buffered_store,
      List.append_assoc]

theorem print_string_stream (str : List Nat) (s : Stdout) :
    (print_string s str).stream = s.stream ++ str := by
  unfold print_string
  induction str generalizing s with
  | nil => simp
  | cons c cs ih => simp [List.foldl_cons, ih, print_char_stream]

theorem print_int_eq (s : Stdout) (n : Int) :
    print_int s n = print_string s (print_int_bytes n) := by
  simp [print_int, print_string, print_int_bytes, List.foldl_map]

theorem print_int_stream (s : Stdout) (n : Int) :
    (print_int s n).stream = s.stream ++ print_int_bytes n := by
  rw [print_int_eq, print_string_stream]


theorem print_int_loop_two (d1 d0 : Nat) (h1 : 1 ≤ d1) (h1' : d1 ≤ 9) (h0 : d0 ≤ 9) :
    print_int_loop (fun _ => 0) 31 ((10 * d1 + d0 : Nat) : Int) =
      (Function.update (Function.update (fun _ => 0) 31 (d0 + 48)) 30 (d1 + 48), 29) := by
  have e1 : (((10 * d1 + d0 : Nat) : Int)).tdiv 10 = (d1 : Int) := by
    rw [Int.tdiv_eq_ediv (by omega) (by decide)]
    omega
  have e2 : (((10 * d1 + d0 : Nat) : Int)).tmod 10 = (d0 : Int) := by
    rw [Int.tmod_eq_emod (by omega) (by decide)]
    omega
  have e3 : (d1 : Int).tdiv 10 = 0 := by
    rw [Int.tdiv_eq_ediv (by omega) (by decide)]
    omega
  have e4 : (d1 : Int).tmod 10 = (d1 : Int) := by
    rw [Int.tmod_eq_emod (by omega) (by decide)]
    omega
  have p1 : (0 : Int) < (d1 : Int) := by omega
  have t0 : ((d0 : Int) + 48).toNat = d0 + 48 := by omega
  have t1 : ((d1 : Int) + 48).toNat = d1 + 48 := by omega
  rw [print_int_loop]
  simp only [e1, e2, p1, if_true]
  rw [print_int_loop]
  simp only [e3, e4, lt_irrefl, if_false, t0, t1]
  norm_num

/-- For a two-digit number `print_int` emits a NUL byte, then the two digits:
the second loop starts one slot below the most significant digit. -/
theorem print_int_bytes_two (d1 d0 : Nat) (h1 : 1 ≤ d1) (h1' : d1 ≤ 9) (h0 : d0 ≤ 9) :
    print_int_bytes ((10 * d1 + d0 : Nat) : Int) = [0, d1 + 48, d0 + 48] := by
  unfold print_int_bytes
  rw [print_int_loop_two d1 d0 h1 h1' h0]
  have : ((32 : Int) - 29).toNat = 3 := by decide
  simp only [this]
  simp [List.range_succ, Function.update]

theorem print_int_bytes_color (t : Tile) :
    print_int_bytes (tile_color t) = [0, 52, (tile_color t + 8).toNat] := by
  cases t
  · exact print_int_bytes_two 4 0 (by decide) (by decide) (by decide)
  · exact print_int_bytes_two 4 2 (by decide) (by decide) (by decide)
  · exact print_int_bytes_two 4 6 (by decide) (by decide) (by decide)

theorem print_int_bytes_40 : print_int_bytes 40 = [0, 52, 48] :=
  print_int_bytes_two 4 0 (by decide) (by decide) (by decide)

theorem print_int_bytes_42 : print_int_bytes 42 = [0, 52, 50] :=
  print_int_bytes_two 4 2 (by decide) (by decide) (by decide)

theorem print_int_bytes_46 : print_int_bytes 46 = [0, 52, 54] :=
  print_int_bytes_two 4 6 (by decide) (by decide) (by decide)

theorem flatMap_range_congr {β : Type} (n : Nat) (f g : Nat → List β)
    (h : ∀ i, i < n → f i = g i) : (List.range n).flatMap f = (List.range n).flatMap g := by
  induction n with
  | zero => rfl
  | succ n ih =>
    rw [List.range_succ, List.flatMap_append, List.flatMap_append,
      ih (fun i hi => h i (by omega))]
    simp [h n (by omega)]

/-! ## Rendering: the bytes of a frame -/

theorem tile_colors_read (t : Tile) : tile_colors[t.toNat]? = some (tile_color t) := by
  cases t <;> rfl

theorem cell_color_eq (tiles : Grid) (position : Int × Int) :
    cell_color tiles position = some (tile_color (cell_tile tiles position)) := by
  unfold cell_color cell_tile tiles_read
  by_cases h1 : 0 ≤ position.1 ∧ position.1 < (TILES_WIDTH : Int)
  · by_cases h2 : 0 ≤ position.2 ∧ position.2 < (TILES_HEIGHT : Int)
    · have h3 : 0 ≤ position.2 ∧ position.2 < (TILES_HEIGHT : Int) ∧
          0 ≤ position.1 ∧ position.1 < (TILES_WIDTH : Int) := ⟨h2.1, h2.2, h1.1, h1.2⟩
      have h4 : 0 ≤ position.1 ∧ position.1 < (TILES_WIDTH : Int) ∧
          0 ≤ position.2 ∧ position.2 < (TILES_HEIGHT : Int) := ⟨h1.1, h1.2, h2.1, h2.2⟩
      rw [if_pos h1, if_pos h2, if_pos h3, if_pos h4]
      exact tile_colors_read _
    · have h4 : ¬ (0 ≤ position.1 ∧ position.1 < (TILES_WIDTH : Int) ∧
          0 ≤ position.2 ∧ position.2 < (TILES_HEIGHT : Int)) := fun h => h2 ⟨h.2.2.1, h.2.2.2⟩
      rw [if_pos h1, if_neg h2, if_neg h4]
      exact tile_colors_read _
  · have h4 : ¬ (0 ≤ position.1 ∧ position.1 < (TILES_WIDTH : Int) ∧
          0 ≤ position.2 ∧ position.2 < (TILES_HEIGHT : Int)) := fun h => h1 ⟨h.1, h.2.1⟩
    rw [if_neg h1, if_neg h4]
    exact tile_colors_read _

theorem tile_color_ne_last (t : Tile) : tile_color t ≠ -1 := by
  cases t <;> decide

theorem print_color_stream (s : Stdout) (color : Int) :
    (print_color s color).stream = s.stream ++ ([0x1B, 91] ++ print_int_bytes color ++ [109]) := by
  simp [print_color, print_char_stream, print_int_stream]

theorem render_cell_stream (tiles : Grid) (player_position : Int × Int) (rows columns : Nat)
    (row column : Nat) (s : Stdout) :
    ∃ s1, render_cell tiles player_position rows columns (-1) row column s = some s1 ∧
      s1.stream = s.stream ++ cell_bytes tiles player_position rows columns row column := by
  unfold render_cell
  simp only [cell_color_eq, Option.map_some', tile_color_ne_last, ne_eq, not_false_eq_true,
    if_true]
  refine ⟨_, rfl, ?_⟩
  simp [print_char_stream, print_color_stream, cell_bytes]

theorem foldlM_stream {β : Type} (f : Stdout → β → Option Stdout) (bytes : β → List Nat)
    (h : ∀ s x, ∃ s1, f s x = some s1 ∧ s1.stream = s.stream ++ bytes x) :
    ∀ (l : List β) (s : Stdout),
      ∃ s1, l.foldlM f s = some s1 ∧ s1.stream = s.stream ++ l.flatMap bytes := by
  intro l
  induction l with
  | nil => intro s; exact ⟨s, rfl, by simp⟩
  | cons x xs ih =>
    intro s
    obtain ⟨s1, h1, h2⟩ := h s x
    obtain ⟨s2, h3, h4⟩ := ih s1
    refine ⟨s2, ?_, ?_⟩
    · simp [List.foldlM_cons, h1, h3]
    · rw [h4, h2]; simp

theorem render_cells_stream (tiles : Grid) (player_position : Int × Int) (rows columns : Nat)
    (s : Stdout) :
    ∃ s1, (List.range rows).foldlM
        (fun s row =>
          (List.range columns).foldlM
            (fun s column =>
              render_cell tiles player_position rows columns (-1) row column s)
            s)
        s = some s1 ∧
      s1.stream = s.stream ++ frame_cells tiles player_position rows columns := by
  apply foldlM_stream
  intro s row
  apply foldlM_stream
  intro s column
  exact render_cell_stream tiles player_position rows columns row column s

theorem print_char_written (s : Stdout) (c : Nat) (h : s.print_buffered ≠ PRINT_BUFFER_SIZE) :
    (print_char s c).written = s.written ∧
      (print_char s c).print_buffered = s.print_buffered + 1 := by
  unfold print_char
  simp [h]

theorem clear_string_buffered (s : Stdout) (h : s.print_buffered = 0) :
    (print_string s [0x1B, 91, 50, 74]).written = s.written ∧
      (print_string s [0x1B, 91, 50, 74]).buffered = [0x1B, 91, 50, 74] := by
  have hw : (print_string s [0x1B, 91, 50, 74]).written = s.written := by
    have n0 : s.print_buffered ≠ PRINT_BUFFER_SIZE := by rw [h]; decide
    obtain ⟨w1, b1⟩ := print_char_written s 0x1B n0
    have n1 : (print_char s 0x1B).print_buffered ≠ PRINT_BUFFER_SIZE := by
      rw [b1, h]; decide
    obtain ⟨w2, b2⟩ := print_char_written _ 91 n1
    have n2 : (print_char (print_char s 0x1B) 91).print_buffered ≠ PRINT_BUFFER_SIZE := by
      rw [b2, b1, h]; decide
    obtain ⟨w3, b3⟩ := print_char_written _ 50 n2
    have n3 : (print_char (print_char (print_char s 0x1B) 91) 50).print_buffered
        ≠ PRINT_BUFFER_SIZE := by
      rw [b3, b2, b1, h]; decide
    obtain ⟨w4, _⟩ := print_char_written _ 74 n3
    simp only [print_string, List.foldl_cons, List.foldl_nil]
    rw [w4, w3, w2, w1]
  refine ⟨hw, ?_⟩
  have hs := print_string_stream [0x1B, 91, 50, 74] s
  have hb : s.buffered = [] := by simp [Stdout.buffered, h]
  simp only [Stdout.stream, Stdout.delivered, hw, hb, List.append_nil] at hs
  exact List.append_cancel_left hs

/-- The frame theorem: started with an empty buffer, `render` returns, leaves
the buffer empty, and has delivered the cursor-home sequence (written
directly), then the buffered clear-screen sequence, then the cells. -/
theorem render_frame (tiles : Grid) (player_position : Int × Int) (rows columns : Nat)
    (s : Stdout) (h : s.print_buffered = 0) :
    ∃ s1, render tiles player_position rows columns s = some s1 ∧
      s1.print_buffered = 0 ∧
      s1.delivered = s.delivered ++ ([0x1B, 91, 72] ++ [0x1B, 91, 50, 74] ++
        frame_cells tiles player_position rows columns) := by
  obtain ⟨hw, hb⟩ := clear_string_buffered s h
  obtain ⟨s1, h1, h2⟩ := render_cells_stream tiles player_position rows columns
    (cursor_to_top_left (print_string s [0x1B, 91, 50, 74]))
  refine ⟨flush s1, ?_, flush_print_buffered s1, ?_⟩
  · simp only [render]
    rw [h1]
    rfl
  · rw [flush_delivered, h2]
    have e1 : (cursor_to_top_left (print_string s [0x1B, 91, 50, 74])).buffered =
        [0x1B, 91, 50, 74] := hb
    have e2 : (cursor_to_top_left (print_string s [0x1B, 91, 50, 74])).delivered =
        s.delivered ++ [0x1B, 91, 72] := by
      simp [cursor_to_top_left, write, Stdout.delivered, hw]
    simp only [Stdout.stream, e1, e2, List.append_assoc]


/-! ## The world grid: basic facts -/

theorem fill_row (c : Nat → Nat → Prop) [∀ i j, Decidable (c i j)] (i y x : Nat) :
    ∀ (n : Nat) (tiles : Grid),
      ((List.range n).foldl
        (fun (tiles : Grid) (j : Nat) =>
          if c i j then tiles.set i j Tile.WATER else tiles.set i j Tile.GRASS)
        tiles) y x =
      if y = i ∧ x < n then (if c y x then Tile.WATER else Tile.GRASS) else tiles y x := by
  intro n
  induction n with
  | zero => intro tiles; simp
  | succ n ih =>
    intro tiles
    rw [List.range_succ, List.foldl_append]
    simp only [List.foldl_cons, List.foldl_nil]
    by_cases hy : y = i
    · subst hy
      by_cases hx : x = n
      · subst hx
        have h1 : y = y ∧ x < x + 1 := ⟨rfl, by omega⟩
        rw [if_pos h1]
        by_cases hc : c y x
        · simp [hc, Grid.set]
        · simp [hc, Grid.set]
      · have h2 : ∀ t : Tile, Grid.set ((List.range n).foldl
              (fun (tiles : Grid) (j : Nat) =>
                if c y j then tiles.set y j Tile.WATER else tiles.set y j Tile.GRASS)
              tiles) y n t y x = ((List.range n).foldl
              (fun (tiles : Grid) (j : Nat) =>
                if c y j then tiles.set y j Tile.WATER else tiles.set y j Tile.GRASS)
              tiles) y x := by
          intro t
          simp [Grid.set, hx]
        have h3 : (if c y n then Grid.set ((List.range n).foldl
              (fun (tiles : Grid) (j : Nat) =>
                if c y j then tiles.set y j Tile.WATER else tiles.set y j Tile.GRASS)
              tiles) y n Tile.WATER else Grid.set ((List.range n).foldl
              (fun (tiles : Grid) (j : Nat) =>
                if c y j then tiles.set y j Tile.WATER else tiles.set y j Tile.GRASS)
              tiles) y n Tile.GRASS) y x = ((List.range n).foldl
              (fun (tiles : Grid) (j : Nat) =>
                if c y j then tiles.set y j Tile.WATER else tiles.set y j Tile.GRASS)
              tiles) y x := by
          split
          · exact h2 _
          · exact h2 _
        rw [h3, ih]
        have h1 : x < n + 1 ↔ x < n := by omega
        simp only [h1]
    · have h2 : ∀ (g : Grid) (t : Tile), Grid.set g i n t y x = g y x := by
        intro g t
        simp [Grid.set, hy]
      have h3 : ∀ (g : Grid), (if c i n then Grid.set g i n Tile.WATER
          else Grid.set g i n Tile.GRASS) y x = g y x := by
        intro g
        split
        · exact h2 _ _
        · exact h2 _ _
      rw [h3, ih]
      simp [hy]

theorem fill_rows (c : Nat → Nat → Prop) [∀ i j, Decidable (c i j)] (w y x : Nat) :
    ∀ (n : Nat) (tiles : Grid),
      ((List.range n).foldl
        (fun (tiles : Grid) (i : Nat) =>
          (List.range w).foldl
            (fun (tiles : Grid) (j : Nat) =>
              if c i j then tiles.set i j Tile.WATER else tiles.set i j Tile.GRASS)
            tiles)
        tiles) y x =
      if y < n ∧ x < w then (if c y x then Tile.WATER else Tile.GRASS) else tiles y x := by
  intro n
  induction n with
  | zero => intro tiles; simp
  | succ n ih =>
    intro tiles
    rw [List.range_succ, List.foldl_append]
    simp only [List.foldl_cons, List.foldl_nil]
    rw [fill_row, ih]
    by_cases hy : y = n
    · subst hy
      by_cases hx : x < w
      · simp [hx]
      · simp [hx]
    · have h1 : (y < n + 1) = (y < n) := by
        apply propext; omega
      simp [hy, h1]

theorem build_map_apply {α : Type} [LinearOrderedField α] (sin : α → α) (tiles : Grid)
    (y x : Nat) :
    build_map sin tiles y x =
      if y < TILES_HEIGHT ∧ x < TILES_WIDTH then
        (if |(((y : Int) - (x : Int) : Int) : α) + sin (((y + x) / 5 : Nat) : α) * 5| < 5 then
          Tile.WATER
        else
          Tile.GRASS)
      else
        tiles y x :=
  fill_rows
    (fun i j => |(((i : Int) - (j : Int) : Int) : α) + sin (((i + j) / 5 : Nat) : α) * 5| < 5)
    TILES_WIDTH y x TILES_HEIGHT tiles

theorem abs_sin_natCast_lt_one (k : Nat) : |Real.sin (k : ℝ)| < 1 := by
  rcases lt_or_eq_of_le (Real.abs_sin_le_one (k : ℝ)) with h | h
  · exact h
  · exfalso
    have hsq : Real.sin (k : ℝ) ^ 2 = 1 := by
      rw [← sq_abs, h]; norm_num
    have hc : Real.cos (k : ℝ) = 0 := by
      have := Real.sin_sq_add_cos_sq (k : ℝ)
      have h2 : Real.cos (k : ℝ) ^ 2 = 0 := by linarith
      exact pow_eq_zero_iff (by norm_num) |>.mp h2
    obtain ⟨m, hm⟩ := Real.cos_eq_zero_iff.mp hc
    have hne : ((2 * m + 1 : ℤ) : ℝ) ≠ 0 := by
      have : (2 * m + 1 : ℤ) ≠ 0 := by omega
      exact_mod_cast this
    have hpi : Real.pi = (((2 * (k : ℤ) : ℤ) : ℚ) / ((2 * m + 1 : ℤ) : ℚ) : ℚ) := by
      push_cast
      push_cast at hne
      field_simp
      linarith
    exact irrational_pi ⟨_, hpi.symm⟩

theorem build_map_centre (tiles : Grid) : build_map Real.sin tiles 50 50 = Tile.WATER := by
  rw [build_map_apply]
  have hb : 50 < TILES_HEIGHT ∧ 50 < TILES_WIDTH := ⟨by decide, by decide⟩
  rw [if_pos hb, if_pos]
  have h20 : (((50 + 50) / 5 : Nat) : ℝ) = ((20 : Nat) : ℝ) := by norm_num
  have hs := abs_sin_natCast_lt_one 20
  rw [h20]
  rw [abs_lt] at hs ⊢
  push_cast at hs ⊢
  constructor <;> linarith [hs.1, hs.2]

theorem cell_tile_centre (tiles : Grid) :
    cell_tile (build_map Real.sin tiles) (50, 50) = Tile.WATER := by
  unfold cell_tile
  rw [if_pos (by decide)]
  exact build_map_centre tiles

/-! ## Colour-set sequences of a frame -/

theorem count_cell_bytes (tiles : Grid) (player_position : Int × Int)
    (rows columns row column : Nat) (rest : List Nat) :
    count_color_sets_from .ground
        (cell_bytes tiles player_position rows columns row column ++ rest) =
      1 + count_color_sets_from .ground rest := by
  have hg : cell_glyph rows columns row column ≠ 0x1B := by
    unfold cell_glyph; split <;> decide
  unfold cell_bytes
  rw [print_int_bytes_color]
  generalize cell_tile tiles (cell_position player_position rows columns row column) = t
  cases t <;> simp [count_color_sets_from, tile_color, BLACK_BACKGROUND, GREEN_BACKGROUND,
    CYAN_BACKGROUND, hg]

theorem count_frame_cells (tiles : Grid) (player_position : Int × Int) (rows columns : Nat) :
    count_color_sets_from .ground (frame_cells tiles player_position rows columns) =
      rows * columns := by
  have row_count : ∀ (row n : Nat) (rest : List Nat),
      count_color_sets_from .ground
        (((List.range n).flatMap fun column =>
          cell_bytes tiles player_position rows columns row column) ++ rest) =
        n + count_color_sets_from .ground rest := by
    intro row n
    induction n with
    | zero => intro rest; simp
    | succ n ih =>
      intro rest
      rw [List.range_succ, List.flatMap_append, List.append_assoc, ih]
      simp only [List.flatMap_cons, List.flatMap_nil, List.append_nil]
      rw [count_cell_bytes]
      omega
  have rows_count : ∀ (n : Nat) (rest : List Nat),
      count_color_sets_from .ground
        (((List.range n).flatMap fun row =>
          (List.range columns).flatMap fun column =>
            cell_bytes tiles player_position rows columns row column) ++ rest) =
        n * columns + count_color_sets_from .ground rest := by
    intro n
    induction n with
    | zero => intro rest; simp
    | succ n ih =>
      intro rest
      rw [List.range_succ, List.flatMap_append, List.append_assoc, ih]
      simp only [List.flatMap_cons, List.flatMap_nil, List.append_nil]
      rw [row_count, Nat.succ_mul]
      omega
  have := rows_count rows []
  simpa [frame_cells, count_color_sets_from] using this

/-- Every frame carries one colour-set sequence per screen cell. -/
theorem render_color_sets (tiles : Grid) (player_position : Int × Int) (rows columns : Nat)
    (s : Stdout) (h : s.print_buffered = 0) :
    ∃ s1 frame, render tiles player_position rows columns s = some s1 ∧
      s1.delivered = s.delivered ++ frame ∧ count_color_sets frame = rows * columns := by
  obtain ⟨s1, h1, _, h3⟩ := render_frame tiles player_position rows columns s h
  refine ⟨s1, _, h1, h3, ?_⟩
  simp only [count_color_sets, List.append_assoc, List.cons_append, List.nil_append]
  simp only [count_color_sets_from]
  simp [count_frame_cells]

/-- C1, evaluated on a terminal of one row and two columns at offset
(1000, 1000), for any grid: both cells lie outside the world and have colour
40, so one position differs from its predecessor (the first, against the
sentinel -1), yet the frame delivered by `render` carries two colour-set
sequences, one per cell. -/
theorem render_color_sets_two_equal_cells (tiles : Grid) :
    frame_colors tiles (1000, 1000) 1 2 = [some 40, some 40] ∧
    color_changes (-1) [40, 40] = 1 ∧
    (render tiles (1000, 1000) 1 2 Stdout.initial).map Stdout.delivered =
      some [0x1B, 91, 72, 0x1B, 91, 50, 74,
            0x1B, 91, 0, 52, 48, 109, 32,
            0x1B, 91, 0, 52, 48, 109, 80] ∧
    count_color_sets [0x1B, 91, 72, 0x1B, 91, 50, 74,
            0x1B, 91, 0, 52, 48, 109, 32,
            0x1B, 91, 0, 52, 48, 109, 80] = 2 := by
  have h0 : cell_tile tiles (cell_position (1000, 1000) 1 2 0 0) = Tile.EMPTY := by
    unfold cell_tile
    rw [if_neg (by decide)]
  have h1 : cell_tile tiles (cell_position (1000, 1000) 1 2 0 1) = Tile.EMPTY := by
    unfold cell_tile
    rw [if_neg (by decide)]
  refine ⟨?_, by decide, ?_, by decide⟩
  · simp only [frame_colors, List.range_succ, List.range_zero, List.nil_append,
      List.flatMap_cons, List.flatMap_nil, List.map_cons, List.map_nil, List.append_nil,
      List.singleton_append, cell_color_eq, h0, h1]
    rfl
  · obtain ⟨s1, hr, _, h3⟩ := render_frame tiles (1000, 1000) 1 2 Stdout.initial rfl
    rw [hr, Option.map_some', h3]
    simp [frame_cells, List.range_succ, cell_bytes, h0, h1, print_int_bytes_color, cell_glyph,
      Stdout.delivered, Stdout.initial]
    decide

/-! ## The buffered writer: no byte lost, duplicated or reordered -/

theorem run_calls_stream (calls : List BufferCall) (s : Stdout) :
    (run_calls s calls).stream = s.stream ++ appended calls := by
  unfold run_calls
  induction calls generalizing s with
  | nil => simp [appended]
  | cons call calls ih =>
    rw [List.foldl_cons, ih]
    cases call with
    | print_char c => simp [BufferCall.run, print_char_stream, appended]
    | flush => simp [BufferCall.run, flush_stream, appended]

/-- C2: for every sequence of `print_char` and `flush` calls applied to a
state whose buffer is empty, the chunks written, concatenated, followed by the
bytes still buffered, are the bytes delivered before followed by the bytes
passed to `print_char`, in call order; after a final `flush` the bytes
delivered are exactly those, and the buffer is empty. -/
theorem buffered_writer_delivers_appended (s : Stdout) (calls : List BufferCall)
    (h : s.print_buffered = 0) :
    (run_calls s calls).delivered ++ (run_calls s calls).buffered =
        s.delivered ++ appended calls ∧
      (flush (run_calls s calls)).delivered = s.delivered ++ appended calls ∧
      (flush (run_calls s calls)).buffered = [] := by
  have hs : s.stream = s.delivered := by simp [Stdout.stream, Stdout.buffered, h]
  have hr := run_calls_stream calls s
  rw [hs] at hr
  exact ⟨hr, by rw [flush_delivered, hr], flush_buffered _⟩

/-- Witness of C2: the calls `print_char 65`, `flush`, `print_char 66` on the
initial state. -/
theorem buffered_writer_delivers_appended_witness :
    Stdout.initial.print_buffered = 0 ∧
      (run_calls Stdout.initial [.print_char 65, .flush, .print_char 66]).delivered ++
          (run_calls Stdout.initial [.print_char 65, .flush, .print_char 66]).buffered =
        Stdout.initial.delivered ++ appended [.print_char 65, .flush, .print_char 66] ∧
      (flush (run_calls Stdout.initial [.print_char 65, .flush, .print_char 66])).delivered =
        Stdout.initial.delivered ++ appended [.print_char 65, .flush, .print_char 66] ∧
      (flush (run_calls Stdout.initial [.print_char 65, .flush, .print_char 66])).buffered = [] :=
  ⟨rfl, buffered_writer_delivers_appended Stdout.initial
    [.print_char 65, .flush, .print_char 66] rfl⟩

/-! ## The player glyph -/

theorem count_glyph_cell_bytes (tiles : Grid) (player_position : Int × Int)
    (rows columns row column : Nat) :
    (cell_bytes tiles player_position rows columns row column).count 80 =
      if row = rows / 2 ∧ column = columns / 2 then 1 else 0 := by
  unfold cell_bytes cell_glyph
  rw [print_int_bytes_color]
  generalize cell_tile tiles (cell_position player_position rows columns row column) = t
  by_cases hc : row = rows / 2 ∧ column = columns / 2
  · rw [if_pos hc, if_pos hc]
    cases t <;> decide
  · rw [if_neg hc, if_neg hc]
    cases t <;> decide

theorem count_glyph_frame_cells (tiles : Grid) (player_position : Int × Int)
    (rows columns : Nat) (hr : 1 ≤ rows) (hc : 1 ≤ columns) :
    (frame_cells tiles player_position rows columns).count 80 = 1 := by
  have row_count : ∀ (row n : Nat),
      ((List.range n).flatMap fun column =>
          cell_bytes tiles player_position rows columns row column).count 80 =
        if row = rows / 2 ∧ columns / 2 < n then 1 else 0 := by
    intro row n
    induction n with
    | zero => simp
    | succ n ih =>
      rw [List.range_succ, List.flatMap_append, List.count_append, ih]
      simp only [List.flatMap_cons, List.flatMap_nil, List.append_nil]
      rw [count_glyph_cell_bytes]
      by_cases h1 : row = rows / 2
      · by_cases h2 : columns / 2 < n
        · have h3 : n ≠ columns / 2 := by omega
          have h4 : columns / 2 < n + 1 := by omega
          simp [h1, h2, h3, h4]
        · by_cases h3 : n = columns / 2
          · have h4 : columns / 2 < n + 1 := by omega
            simp [h1, h2, h3]
          · have h4 : ¬ columns / 2 < n + 1 := by omega
            simp [h1, h2, h3, h4]
      · simp [h1]
  have rows_count : ∀ (n : Nat),
      ((List.range n).flatMap fun row =>
          (List.range columns).flatMap fun column =>
            cell_bytes tiles player_position rows columns row column).count 80 =
        if rows / 2 < n then 1 else 0 := by
    intro n
    have hc2 : columns / 2 < columns := by omega
    induction n with
    | zero => simp
    | succ n ih =>
      rw [List.range_succ, List.flatMap_append, List.count_append, ih]
      simp only [List.flatMap_cons, List.flatMap_nil, List.append_nil]
      rw [row_count]
      by_cases h2 : rows / 2 < n
      · have h3 : n ≠ rows / 2 := by omega
        have h4 : rows / 2 < n + 1 := by omega
        simp [h2, h3, h4]
      · by_cases h3 : n = rows / 2
        · have h4 : rows / 2 < n + 1 := by omega
          simp [h2, h3, hc2]
        · have h4 : ¬ rows / 2 < n + 1 := by omega
          simp [h2, h3, h4]
  have hr2 : rows / 2 < rows := by omega
  have := rows_count rows
  rw [if_pos hr2] at this
  exact this

/-- C3: on a terminal with at least one row and one column, a call of
`render` that starts with an empty buffer returns, and the frame it delivers
is the two leading control sequences followed, cell by cell in row-major
order, by the colour-set bytes of the cell and then its glyph, which is `P`
(80) for the cell `(rows / 2, columns / 2)` and a space (32) for every other
cell, whatever the grid and the offset.  No colour-set byte is `P` or a space,
the centre cell is on the screen, and the frame holds exactly one `P`. -/
theorem render_player_glyph (tiles : Grid) (player_position : Int × Int) (rows columns : Nat)
    (s : Stdout) (hr : 1 ≤ rows) (hc : 1 ≤ columns) (h : s.print_buffered = 0) :
    ∃ s1 frame, render tiles player_position rows columns s = some s1 ∧
      s1.delivered = s.delivered ++ frame ∧
      frame = [0x1B, 91, 72, 0x1B, 91, 50, 74] ++
        (List.range rows).flatMap (fun row =>
          (List.range columns).flatMap (fun column =>
            [0x1B, 91] ++
              print_int_bytes (tile_color
                (cell_tile tiles (cell_position player_position rows columns row column))) ++
              [109] ++ [if row = rows / 2 ∧ column = columns / 2 then 80 else 32])) ∧
      (∀ row column, ∀ b ∈ [0x1B, 91] ++
          print_int_bytes (tile_color
            (cell_tile tiles (cell_position player_position rows columns row column))) ++
          [109], b ≠ 80 ∧ b ≠ 32) ∧
      rows / 2 < rows ∧ columns / 2 < columns ∧
      frame.count 80 = 1 := by
  obtain ⟨s1, h1, _, h3⟩ := render_frame tiles player_position rows columns s h
  refine ⟨s1, _, h1, h3, ?_, ?_, by omega, by omega, ?_⟩
  · simp [frame_cells, cell_bytes, cell_glyph]
  · intro row column b hb
    rw [print_int_bytes_color] at hb
    generalize cell_tile tiles (cell_position player_position rows columns row column) = t at hb
    cases t <;>
      simp [tile_color, BLACK_BACKGROUND, GREEN_BACKGROUND, CYAN_BACKGROUND] at hb <;>
      rcases hb with rfl | rfl | rfl | rfl | rfl | rfl <;> decide
  · rw [List.count_append, List.count_append, count_glyph_frame_cells _ _ _ _ hr hc]
    decide

/-- Witness of C3: an 80 x 24 terminal over an all-grass grid at offset
(0, 0), from the initial state. -/
theorem render_player_glyph_witness :
    1 ≤ 24 ∧ 1 ≤ 80 ∧ Stdout.initial.print_buffered = 0 ∧
    ∃ s1 frame, render (fun _ _ => Tile.GRASS) (0, 0) 24 80 Stdout.initial = some s1 ∧
      s1.delivered = Stdout.initial.delivered ++ frame ∧
      frame = [0x1B, 91, 72, 0x1B, 91, 50, 74] ++
        (List.range 24).flatMap (fun row =>
          (List.range 80).flatMap (fun column =>
            [0x1B, 91] ++
              print_int_bytes (tile_color
                (cell_tile (fun _ _ => Tile.GRASS) (cell_position (0, 0) 24 80 row column))) ++
              [109] ++ [if row = 24 / 2 ∧ column = 80 / 2 then 80 else 32])) ∧
      (∀ row column, ∀ b ∈ [0x1B, 91] ++
          print_int_bytes (tile_color
            (cell_tile (fun _ _ => Tile.GRASS) (cell_position (0, 0) 24 80 row column))) ++
          [109], b ≠ 80 ∧ b ≠ 32) ∧
      24 / 2 < 24 ∧ 80 / 2 < 80 ∧
      frame.count 80 = 1 :=
  ⟨by decide, by decide, rfl,
    render_player_glyph (fun _ _ => Tile.GRASS) (0, 0) 24 80 Stdout.initial
      (by decide) (by decide) rfl⟩

/-! ## Colour selection -/

/-- C4: the world coordinate `render` computes for the screen cell
`(row, column)` is `(column - columns/2 + 50 + px, row - rows/2 + 50 - py)`;
if its first component is outside `[0, 100)` or its second is, the colour
selected for the cell is 40, the colour of `EMPTY`.  On an 80 x 24 terminal at
offset `(1000, 1000)` every cell is coloured 40, and the frame `render`
delivers from the initial state sets colour 40 for every cell. -/
theorem render_color_outside_world (tiles : Grid) (px py : Int)
    (rows columns row column : Nat) :
    cell_position (px, py) rows columns row column =
        ((column : Int) - ((columns / 2 : Nat) : Int) + 50 + px,
         (row : Int) - ((rows / 2 : Nat) : Int) + 50 - py) ∧
      (¬ (0 ≤ (column : Int) - ((columns / 2 : Nat) : Int) + 50 + px ∧
            (column : Int) - ((columns / 2 : Nat) : Int) + 50 + px < 100) ∨
          ¬ (0 ≤ (row : Int) - ((rows / 2 : Nat) : Int) + 50 - py ∧
            (row : Int) - ((rows / 2 : Nat) : Int) + 50 - py < 100) →
        cell_color tiles (cell_position (px, py) rows columns row column) =
          some 40) ∧
      (∀ r c : Nat, r < 24 → c < 80 →
        cell_color tiles (cell_position (1000, 1000) 24 80 r c) = some 40) ∧
      (∃ s1, render tiles (1000, 1000) 24 80 Stdout.initial = some s1 ∧
        s1.delivered = [0x1B, 91, 72, 0x1B, 91, 50, 74] ++
          (List.range 24).flatMap (fun r =>
            (List.range 80).flatMap (fun c =>
              [0x1B, 91] ++ print_int_bytes 40 ++
                [109, if r = 12 ∧ c = 40 then 80 else 32]))) := by
  have hp : cell_position (px, py) rows columns row column =
        ((column : Int) - ((columns / 2 : Nat) : Int) + 50 + px,
         (row : Int) - ((rows / 2 : Nat) : Int) + 50 - py) := by
    simp [cell_position, TILES_HEIGHT, TILES_WIDTH]
  have hs : ∀ r c : Nat, r < 24 → c < 80 →
      cell_tile tiles (cell_position (1000, 1000) 24 80 r c) = Tile.EMPTY := by
    intro r c hr hc
    unfold cell_tile cell_position
    rw [if_neg]
    simp only [TILES_WIDTH, TILES_HEIGHT]
    push_cast
    omega
  refine ⟨hp, ?_, ?_, ?_⟩
  · intro h
    rw [cell_color_eq, hp]
    have : cell_tile tiles ((column : Int) - ((columns / 2 : Nat) : Int) + 50 + px,
         (row : Int) - ((rows / 2 : Nat) : Int) + 50 - py) = Tile.EMPTY := by
      unfold cell_tile
      rw [if_neg]
      simp only [TILES_WIDTH, TILES_HEIGHT]
      push_cast
      omega
    rw [this]
    rfl
  · intro r c hr hc
    rw [cell_color_eq, hs r c hr hc]
    rfl
  · obtain ⟨s1, h1, _, h3⟩ := render_frame tiles (1000, 1000) 24 80 Stdout.initial rfl
    refine ⟨s1, h1, ?_⟩
    have key : frame_cells tiles (1000, 1000) 24 80 =
        (List.range 24).flatMap (fun r =>
          (List.range 80).flatMap (fun c =>
            [0x1B, 91] ++ print_int_bytes 40 ++
              [109, if r = 12 ∧ c = 40 then 80 else 32])) := by
      unfold frame_cells
      apply flatMap_range_congr
      intro r hr
      apply flatMap_range_congr
      intro c hc
      simp [cell_bytes, hs r c hr hc, cell_glyph, tile_color, BLACK_BACKGROUND]
    rw [h3, key]
    simp [Stdout.delivered, Stdout.initial]

/-- Witness of C4: the cells (0, 0) and (23, 79) of an 80 x 24 terminal at
offset (1000, 1000). -/
theorem render_color_outside_world_witness :
    (¬ (0 ≤ ((0 : Nat) : Int) - ((80 / 2 : Nat) : Int) + 50 + 1000 ∧
          ((0 : Nat) : Int) - ((80 / 2 : Nat) : Int) + 50 + 1000 < 100) ∨
        ¬ (0 ≤ ((0 : Nat) : Int) - ((24 / 2 : Nat) : Int) + 50 - 1000 ∧
          ((0 : Nat) : Int) - ((24 / 2 : Nat) : Int) + 50 - 1000 < 100)) ∧
      cell_color (fun _ _ => Tile.WATER) (cell_position (1000, 1000) 24 80 0 0) = some 40 ∧
      (23 < 24 ∧ 79 < 80) ∧
      cell_color (fun _ _ => Tile.WATER) (cell_position (1000, 1000) 24 80 23 79) = some 40 :=
  ⟨Or.inl (by decide),
   (render_color_outside_world (fun _ _ => Tile.WATER) 1000 1000 24 80 0 0).2.1
     (Or.inl (by decide)),
   ⟨by decide, by decide⟩,
   (render_color_outside_world (fun _ _ => Tile.WATER) 1000 1000 24 80 0 0).2.2.1 23 79
     (by decide) (by decide)⟩

theorem cell_color_inside (tiles : Grid) (x y : Nat) (hx : x < 100) (hy : y < 100) :
    cell_color tiles ((x : Int), (y : Int)) = some (tile_color (tiles y x)) := by
  rw [cell_color_eq]
  unfold cell_tile
  rw [if_pos]
  · simp
  · simp only [TILES_WIDTH, TILES_HEIGHT]
    push_cast
    omega

/-- C5, evaluated on a terminal of one row and one column at offset (0, 0)
over the grid that `build_map` produces: the cell lies at world (50, 50), its
tile is `WATER` and its colour is 46, the table entry of `WATER`; but the
colour-set sequence `render` emits for it is `ESC [ NUL 4 6 m` (six bytes),
not `ESC [ 4 6 m`, because `print_int` first prints the zero byte below the
most significant digit. -/
theorem render_color_set_bytes_nul (tiles : Grid) :
    cell_position (0, 0) 1 1 0 0 = (50, 50) ∧
    cell_color (build_map Real.sin tiles) (cell_position (0, 0) 1 1 0 0) = some 46 ∧
    (print_color Stdout.initial 46).stream = [0x1B, 91, 0, 52, 54, 109] ∧
    (render (build_map Real.sin tiles) (0, 0) 1 1 Stdout.initial).map Stdout.delivered =
      some [0x1B, 91, 72, 0x1B, 91, 50, 74, 0x1B, 91, 0, 52, 54, 109, 80] ∧
    [0x1B, 91, 0, 52, 54, 109] ≠ [0x1B, 91, 52, 54, 109] := by
  have hp : cell_position (0, 0) 1 1 0 0 = (50, 50) := by decide
  have h0 : cell_tile (build_map Real.sin tiles) (cell_position (0, 0) 1 1 0 0) =
      Tile.WATER := by
    rw [hp]
    exact cell_tile_centre tiles
  refine ⟨hp, ?_, ?_, ?_, by decide⟩
  · rw [cell_color_eq, h0]
    rfl
  · rw [print_color_stream, print_int_bytes_46]
    rfl
  · obtain ⟨s1, h1, _, h3⟩ :=
      render_frame (build_map Real.sin tiles) (0, 0) 1 1 Stdout.initial rfl
    have hb : cell_bytes (build_map Real.sin tiles) (0, 0) 1 1 0 0 =
        [0x1B, 91, 0, 52, 54, 109, 80] := by
      unfold cell_bytes
      rw [h0]
      show [0x1B, 91] ++ print_int_bytes 46 ++ [109, cell_glyph 1 1 0 0] = _
      rw [print_int_bytes_46]
      rfl
    have hf : frame_cells (build_map Real.sin tiles) (0, 0) 1 1 =
        cell_bytes (build_map Real.sin tiles) (0, 0) 1 1 0 0 := by
      simp [frame_cells, List.range_succ]
    rw [h1, Option.map_some', h3, hf, hb]
    rfl

/-! ## Input -/

theorem wrap_int_of_range (v : Int) (h0 : -2147483648 ≤ v) (h1 : v ≤ 2147483647) :
    wrap_int v = v := by
  unfold wrap_int
  omega

/-- C6, amended: for every offset `(x, y)` of two C `int` values,
`handle_input` on `w` (119) yields `(x, y + 1)` if `y < INT_MAX`, on `s` (115)
yields `(x, y - 1)` if `INT_MIN < y`, on `a` (97) yields `(x - 1, y)` if
`INT_MIN < x`, and on `d` (100) yields `(x + 1, y)` if `x < INT_MAX`, each
time with the session still running and the other coordinate unchanged. -/
theorem handle_input_moves (x y : Int)
    (hx : -2147483648 ≤ x ∧ x ≤ 2147483647) (hy : -2147483648 ≤ y ∧ y ≤ 2147483647) :
    INT_MAX = 2147483647 ∧ INT_MIN = -2147483648 ∧
    (y < 2147483647 → handle_input 119 (x, y) = .running (x, y + 1)) ∧
    (-2147483648 < y → handle_input 115 (x, y) = .running (x, y - 1)) ∧
    (-2147483648 < x → handle_input 97 (x, y) = .running (x - 1, y)) ∧
    (x < 2147483647 → handle_input 100 (x, y) = .running (x + 1, y)) := by
  refine ⟨rfl, rfl, ?_, ?_, ?_, ?_⟩
  · intro h
    simp [handle_input, wrap_int_of_range (y + 1) (by omega) (by omega)]
  · intro h
    simp [handle_input, wrap_int_of_range (y - 1) (by omega) (by omega)]
  · intro h
    simp [handle_input, wrap_int_of_range (x - 1) (by omega) (by omega)]
  · intro h
    simp [handle_input, wrap_int_of_range (x + 1) (by omega) (by omega)]

/-- Witness of the amended C6: the offset (3, -4). -/
theorem handle_input_moves_witness :
    ((-2147483648 : Int) ≤ 3 ∧ (3 : Int) ≤ 2147483647) ∧
    ((-2147483648 : Int) ≤ -4 ∧ (-4 : Int) ≤ 2147483647) ∧
    ((-4 : Int) < 2147483647 ∧ handle_input 119 (3, -4) = .running (3, -4 + 1)) ∧
    ((-2147483648 : Int) < -4 ∧ handle_input 115 (3, -4) = .running (3, -4 - 1)) ∧
    ((-2147483648 : Int) < 3 ∧ handle_input 97 (3, -4) = .running (3 - 1, -4)) ∧
    ((3 : Int) < 2147483647 ∧ handle_input 100 (3, -4) = .running (3 + 1, -4)) :=
  ⟨by decide, by decide,
   ⟨by decide, (handle_input_moves 3 (-4) (by decide) (by decide)).2.2.1 (by decide)⟩,
   ⟨by decide, (handle_input_moves 3 (-4) (by decide) (by decide)).2.2.2.1 (by decide)⟩,
   ⟨by decide, (handle_input_moves 3 (-4) (by decide) (by decide)).2.2.2.2.1 (by decide)⟩,
   ⟨by decide, (handle_input_moves 3 (-4) (by decide) (by decide)).2.2.2.2.2 (by decide)⟩⟩

/-- C6 as stated fails at the offset `(0, INT_MAX)`: on `w` the second
coordinate becomes `INT_MIN`, not `INT_MAX + 1`; likewise on `d` at
`(INT_MAX, 0)`, on `s` at `(0, INT_MIN)` and on `a` at `(INT_MIN, 0)`. -/
theorem handle_input_wraps_at_int_max :
    handle_input 119 (0, 2147483647) = .running (0, -2147483648) ∧
    handle_input 119 (0, 2147483647) ≠ .running (0, 2147483647 + 1) ∧
    handle_input 100 (2147483647, 0) = .running (-2147483648, 0) ∧
    handle_input 115 (0, -2147483648) = .running (0, 2147483647) ∧
    handle_input 97 (-2147483648, 0) = .running (2147483647, 0) := by
  decide

/-- C7: for every offset, `handle_input` on `q` (113) exits with status 0 and
the offset unchanged; on a key other than `w`, `s`, `a`, `d`, `q` it leaves the
offset unchanged and keeps the session running; and it exits if and only if
the key is `q`. -/
theorem handle_input_quit (key : Nat) (p : Int × Int) :
    handle_input 113 p = .exited 0 p ∧
    (key ≠ 119 → key ≠ 115 → key ≠ 97 → key ≠ 100 → key ≠ 113 →
      handle_input key p = .running p) ∧
    ((∃ status q, handle_input key p = .exited status q) ↔ key = 113) := by
  refine ⟨by simp [handle_input, EXIT_SUCCESS], ?_, ?_⟩
  · intro h1 h2 h3 h4 h5
    simp [handle_input, h1, h2, h3, h4, h5]
  · constructor
    · rintro ⟨status, q, h⟩
      by_contra hk
      unfold handle_input at h
      split_ifs at h
    · rintro rfl
      exact ⟨0, p, by simp [handle_input, EXIT_SUCCESS]⟩

/-- Witness of C7: the key `x` (120) at offset (3, -4). -/
theorem handle_input_quit_witness :
    (120 ≠ 119 ∧ 120 ≠ 115 ∧ 120 ≠ 97 ∧ 120 ≠ 100 ∧ 120 ≠ 113) ∧
    handle_input 120 (3, -4) = .running (3, -4) :=
  ⟨by decide, (handle_input_quit 120 (3, -4)).2.1
    (by decide) (by decide) (by decide) (by decide) (by decide)⟩

/-! ## The world grid: the classification test -/

/-- C8, amended: for every world coordinate `i, j < 100`, after `build_map`
the entry `tiles[i][j]` is `WATER` exactly when
`|i - j + 5 * sin q| < 5` and `GRASS` otherwise, where `sin` is the real sine
and `q` is the truncated integer quotient of `i + j` by 5. -/
theorem build_map_water_iff (tiles : Grid) (i j : Nat) (hi : i < 100) (hj : j < 100) :
    (build_map Real.sin tiles i j = Tile.WATER ↔
        |(i : ℝ) - (j : ℝ) + 5 * Real.sin (((i + j) / 5 : Nat) : ℝ)| < 5) ∧
      (build_map Real.sin tiles i j = Tile.GRASS ↔
        ¬ |(i : ℝ) - (j : ℝ) + 5 * Real.sin (((i + j) / 5 : Nat) : ℝ)| < 5) := by
  rw [build_map_apply]
  have hb : i < TILES_HEIGHT ∧ j < TILES_WIDTH := ⟨hi, hj⟩
  rw [if_pos hb]
  have he : (((i : Int) - (j : Int) : Int) : ℝ) + Real.sin (((i + j) / 5 : Nat) : ℝ) * 5 =
      (i : ℝ) - (j : ℝ) + 5 * Real.sin (((i + j) / 5 : Nat) : ℝ) := by
    push_cast
    ring
  rw [he]
  by_cases hc : |(i : ℝ) - (j : ℝ) + 5 * Real.sin (((i + j) / 5 : Nat) : ℝ)| < 5
  · simp [hc]
  · simp [hc]

/-- Witness of the amended C8 at `(i, j) = (11, 6)`. -/
theorem build_map_water_iff_witness :
    (11 < 100 ∧ 6 < 100) ∧
      (build_map Real.sin (fun _ _ => Tile.EMPTY) 11 6 = Tile.WATER ↔
        |((11 : Nat) : ℝ) - ((6 : Nat) : ℝ) +
          5 * Real.sin (((11 + 6) / 5 : Nat) : ℝ)| < 5) :=
  ⟨⟨by decide, by decide⟩,
    (build_map_water_iff (fun _ _ => Tile.EMPTY) 11 6 (by decide) (by decide)).1⟩

/-- C8 as stated fails at `(i, j) = (11, 6)`: `build_map` stores `GRASS`
there, although `|11 - 6 + 5 * sin (17 / 5)| < 5` with the exact quotient. -/
theorem build_map_exact_quotient_fails :
    build_map Real.sin (fun _ _ => Tile.EMPTY) 11 6 = Tile.GRASS ∧
      |((11 : Nat) : ℝ) - ((6 : Nat) : ℝ) +
        5 * Real.sin ((((11 : Nat) : ℝ) + ((6 : Nat) : ℝ)) / 5)| < 5 := by
  constructor
  · rw [build_map_apply]
    have hb : 11 < TILES_HEIGHT ∧ 6 < TILES_WIDTH := ⟨by decide, by decide⟩
    rw [if_pos hb, if_neg]
    have h3 : (((11 + 6) / 5 : Nat) : ℝ) = 3 := by norm_num
    have hs : 0 < Real.sin 3 :=
      Real.sin_pos_of_pos_of_lt_pi (by norm_num) Real.pi_gt_three
    rw [h3]
    push_cast
    rw [abs_of_pos (by linarith)]
    linarith
  · have hlt : Real.sin (17 / 5) < 0 := by
      have h1 : Real.sin (17 / 5 - 2 * Real.pi) < 0 := by
        apply Real.sin_neg_of_neg_of_neg_pi_lt
        · have := Real.pi_gt_three
          linarith
        · have := Real.pi_lt_d2
          linarith
      rwa [Real.sin_sub_two_pi] at h1
    have hge : -1 ≤ Real.sin (17 / 5) := Real.neg_one_le_sin _
    have e : (((11 : Nat) : ℝ) + ((6 : Nat) : ℝ)) / 5 = 17 / 5 := by norm_num
    rw [e, abs_lt]
    push_cast
    constructor <;> linarith

/-- C9: on an 80 x 24 terminal at offset (0, 0) the screen cell (row 12,
column 40) is mapped to world coordinate (50, 50); `build_map` stores `WATER`
there, so the cell is rendered with colour 46, and its glyph is `P` (80). -/
theorem render_centre_cell_water (tiles : Grid) :
    cell_position (0, 0) 24 80 12 40 = (50, 50) ∧
      build_map Real.sin tiles 50 50 = Tile.WATER ∧
      cell_color (build_map Real.sin tiles) (cell_position (0, 0) 24 80 12 40) = some 46 ∧
      cell_glyph 24 80 12 40 = 80 ∧
      cell_bytes (build_map Real.sin tiles) (0, 0) 24 80 12 40 =
        [0x1B, 91] ++ print_int_bytes 46 ++ [109, 80] := by
  have hp : cell_position (0, 0) 24 80 12 40 = (50, 50) := by decide
  have ht : cell_tile (build_map Real.sin tiles) (cell_position (0, 0) 24 80 12 40) =
      Tile.WATER := by
    rw [hp]
    exact cell_tile_centre tiles
  refine ⟨hp, build_map_centre tiles, ?_, by decide, ?_⟩
  · rw [cell_color_eq, ht]
    rfl
  · unfold cell_bytes
    rw [ht]
    rfl

/-! ## Order of a frame -/

/-- C10: a call of `render` that starts with an empty buffer returns; the
bytes it delivers are the cursor-home sequence `ESC [ H`, the clear-screen
sequence `ESC [ 2 J`, and only then the bytes of the screen cells in row-major
order; and on return the buffer is empty. -/
theorem render_frame_order (tiles : Grid) (player_position : Int × Int) (rows columns : Nat)
    (s : Stdout) (h : s.print_buffered = 0) :
    ∃ s1, render tiles player_position rows columns s = some s1 ∧
      s1.delivered = s.delivered ++ ([0x1B, 91, 72] ++ [0x1B, 91, 50, 74] ++
        (List.range rows).flatMap (fun row =>
          (List.range columns).flatMap (fun column =>
            cell_bytes tiles player_position rows columns row column))) ∧
      s1.print_buffered = 0 ∧ s1.buffered = [] := by
  obtain ⟨s1, h1, h2, h3⟩ := render_frame tiles player_position rows columns s h
  exact ⟨s1, h1, h3, h2, by simp [Stdout.buffered, h2]⟩

/-- Witness of C10: an 80 x 24 terminal over an all-grass grid at offset
(0, 0), from the initial state. -/
theorem render_frame_order_witness :
    Stdout.initial.print_buffered = 0 ∧
    ∃ s1, render (fun _ _ => Tile.GRASS) (0, 0) 24 80 Stdout.initial = some s1 ∧
      s1.delivered = Stdout.initial.delivered ++ ([0x1B, 91, 72] ++ [0x1B, 91, 50, 74] ++
        (List.range 24).flatMap (fun row =>
          (List.range 80).flatMap (fun column =>
            cell_bytes (fun _ _ => Tile.GRASS) (0, 0) 24 80 row column))) ∧
      s1.print_buffered = 0 ∧ s1.buffered = [] :=
  ⟨rfl, render_frame_order (fun _ _ => Tile.GRASS) (0, 0) 24 80 Stdout.initial rfl⟩

/-! ## The history of `print_char` calls -/

theorem flush_printed (s : Stdout) : (flush s).printed = s.printed := by
  unfold flush
  split <;> rfl

theorem print_char_printed (s : Stdout) (c : Nat) :
    (print_char s c).printed = s.printed ++ [c] := by
  unfold print_char
  by_cases h : s.print_buffered = PRINT_BUFFER_SIZE
  · simp only [h, if_true, flush_printed]
  · simp only [h, if_false]

theorem print_string_printed (str : List Nat) (s : Stdout) :
    (print_string s str).printed = s.printed ++ str := by
  unfold print_string
  induction str generalizing s with
  | nil => simp
  | cons c cs ih => simp [List.foldl_cons, ih, print_char_printed]

theorem print_int_printed (s : Stdout) (n : Int) :
    (print_int s n).printed = s.printed ++ print_int_bytes n := by
  rw [print_int_eq, print_string_printed]

theorem render_cell_printed (tiles : Grid) (player_position : Int × Int) (rows columns : Nat)
    (row column : Nat) (s : Stdout) :
    ∃ s1, render_cell tiles player_position rows columns (-1) row column s = some s1 ∧
      s1.printed = s.printed ++ cell_bytes tiles player_position rows columns row column := by
  unfold render_cell
  simp only [cell_color_eq, Option.map_some', tile_color_ne_last, ne_eq, not_false_eq_true,
    if_true]
  refine ⟨_, rfl, ?_⟩
  simp [print_char_printed, print_int_printed, print_color, cell_bytes]

theorem foldlM_printed {β : Type} (f : Stdout → β → Option Stdout) (bytes : β → List Nat)
    (h : ∀ s x, ∃ s1, f s x = some s1 ∧ s1.printed = s.printed ++ bytes x) :
    ∀ (l : List β) (s : Stdout),
      ∃ s1, l.foldlM f s = some s1 ∧ s1.printed = s.printed ++ l.flatMap bytes := by
  intro l
  induction l with
  | nil => intro s; exact ⟨s, rfl, by simp⟩
  | cons x xs ih =>
    intro s
    obtain ⟨s1, h1, h2⟩ := h s x
    obtain ⟨s2, h3, h4⟩ := ih s1
    refine ⟨s2, ?_, ?_⟩
    · simp [List.foldlM_cons, h1, h3]
    · rw [h4, h2]; simp

theorem render_printed (tiles : Grid) (player_position : Int × Int) (rows columns : Nat)
    (s : Stdout) :
    ∃ s1, render tiles player_position rows columns s = some s1 ∧
      s1.printed = s.printed ++ ([0x1B, 91, 50, 74] ++
        frame_cells tiles player_position rows columns) := by
  obtain ⟨s1, h1, h2⟩ := foldlM_printed
    (fun s row =>
      (List.range columns).foldlM
        (fun s column =>
          render_cell tiles player_position rows columns (-1) row column s)
        s)
    (fun row => (List.range columns).flatMap fun column =>
      cell_bytes tiles player_position rows columns row column)
    (fun s row => foldlM_printed _ _
      (fun s column => render_cell_printed tiles player_position rows columns row column s)
      (List.range columns) s)
    (List.range rows) (cursor_to_top_left (print_string s [0x1B, 91, 50, 74]))
  refine ⟨flush s1, ?_, ?_⟩
  · simp only [render]
    rw [h1]
    rfl
  · rw [flush_printed, h2]
    have : (cursor_to_top_left (print_string s [0x1B, 91, 50, 74])).printed =
        s.printed ++ [0x1B, 91, 50, 74] := by
      show (print_string s [0x1B, 91, 50, 74]).printed = _
      rw [print_string_printed]
    rw [this]
    simp [frame_cells]

/-- C11, amended: a call of `render` that starts with an empty buffer
returns, and the bytes it delivers are the three bytes `ESC [ H`, which
`cursor_to_top_left` writes directly, followed in order by the bytes passed to
`print_char` during the call; on return the buffer is empty. -/
theorem render_delivers_home_then_printed (tiles : Grid) (player_position : Int × Int)
    (rows columns : Nat) (s : Stdout) (h : s.print_buffered = 0) :
    ∃ s1 printed, render tiles player_position rows columns s = some s1 ∧
      s1.printed = s.printed ++ printed ∧
      s1.delivered = s.delivered ++ ([0x1B, 91, 72] ++ printed) ∧
      s1.buffered = [] := by
  obtain ⟨s1, h1, h2, h3⟩ := render_frame tiles player_position rows columns s h
  obtain ⟨s2, h4, h5⟩ := render_printed tiles player_position rows columns s
  have e : s2 = s1 := by
    rw [h1] at h4
    exact (Option.some.inj h4).symm
  subst e
  refine ⟨s2, _, h1, h5, ?_, by simp [Stdout.buffered, h2]⟩
  rw [h3]
  simp

/-- Witness of the amended C11: an 80 x 24 terminal over an all-grass grid at
offset (0, 0), from the initial state. -/
theorem render_delivers_home_then_printed_witness :
    Stdout.initial.print_buffered = 0 ∧
    ∃ s1 printed, render (fun _ _ => Tile.GRASS) (0, 0) 24 80 Stdout.initial = some s1 ∧
      s1.printed = Stdout.initial.printed ++ printed ∧
      s1.delivered = Stdout.initial.delivered ++ ([0x1B, 91, 72] ++ printed) ∧
      s1.buffered = [] :=
  ⟨rfl, render_delivers_home_then_printed (fun _ _ => Tile.GRASS) (0, 0) 24 80
    Stdout.initial rfl⟩

/-- C11 as stated fails on a terminal of one row and one column at offset
(1000, 1000) over the grid of `build_map`, from the initial state: fourteen
bytes are delivered, eleven were passed to `print_char`. -/
theorem render_delivered_ne_printed :
    ∃ s1, render (build_map Real.sin (fun _ _ => Tile.EMPTY)) (1000, 1000) 1 1
        Stdout.initial = some s1 ∧
      s1.delivered = [0x1B, 91, 72, 0x1B, 91, 50, 74, 0x1B, 91, 0, 52, 48, 109, 80] ∧
      s1.printed = [0x1B, 91, 50, 74, 0x1B, 91, 0, 52, 48, 109, 80] ∧
      s1.delivered ≠ s1.printed := by
  obtain ⟨s1, h1, _, h3⟩ := render_frame (build_map Real.sin (fun _ _ => Tile.EMPTY))
    (1000, 1000) 1 1 Stdout.initial rfl
  obtain ⟨s2, h4, h5⟩ := render_printed (build_map Real.sin (fun _ _ => Tile.EMPTY))
    (1000, 1000) 1 1 Stdout.initial
  have e : s2 = s1 := by
    rw [h1] at h4
    exact (Option.some.inj h4).symm
  subst e
  have h0 : cell_tile (build_map Real.sin (fun _ _ => Tile.EMPTY))
      (cell_position (1000, 1000) 1 1 0 0) = Tile.EMPTY := by
    unfold cell_tile
    rw [if_neg (by decide)]
  have hf : frame_cells (build_map Real.sin (fun _ _ => Tile.EMPTY)) (1000, 1000) 1 1 =
      [0x1B, 91, 0, 52, 48, 109, 80] := by
    simp [frame_cells, List.range_succ, cell_bytes, h0, print_int_bytes_color, cell_glyph]
    decide
  have hd : s2.delivered = [0x1B, 91, 72, 0x1B, 91, 50, 74, 0x1B, 91, 0, 52, 48, 109, 80] := by
    rw [h3, hf]
    rfl
  have hp : s2.printed = [0x1B, 91, 50, 74, 0x1B, 91, 0, 52, 48, 109, 80] := by
    rw [h5, hf]
    rfl
  refine ⟨s2, h1, hd, hp, ?_⟩
  rw [hd, hp]
  decide

/-! ## The buffer cursor -/

theorem buffered_length (s : Stdout) : s.buffered.length = s.print_buffered := by
  simp [Stdout.buffered]

theorem print_char_full (s : Stdout) (c : Nat) (h : s.print_buffered = PRINT_BUFFER_SIZE) :
    (print_char s c).written = s.written ++ [s.buffered] ∧
      (print_char s c).buffered = [c] ∧ (print_char s c).print_buffered = 1 := by
  have hpos : s.print_buffered > 0 := by rw [h]; decide
  have hf : flush s = { write s s.buffered with print_buffered := 0 } := by
    unfold flush
    rw [if_pos hpos]
  unfold print_char
  simp only [h, if_true]
  rw [hf]
  refine ⟨rfl, ?_, rfl⟩
  simp [Stdout.buffered, write, List.range_succ]

theorem print_char_not_full (s : Stdout) (c : Nat) (h : s.print_buffered ≠ PRINT_BUFFER_SIZE) :
    (print_char s c).written = s.written ∧
      (print_char s c).buffered = s.buffered ++ [c] ∧
      (print_char s c).print_buffered = s.print_buffered + 1 := by
  unfold print_char
  rw [if_neg h]
  refine ⟨rfl, ?_, rfl⟩
  simp only [Stdout.buffered, buffered_store]

/-- C12: `print_char` on a buffer holding exactly 16384 bytes, the capacity,
issues one write carrying those 16384 bytes in order, and then the buffer
holds the single byte `c` (cursor 1); on a buffer holding fewer bytes it
issues no write, and the buffer holds the previous bytes followed by `c`
(cursor one higher). -/
theorem print_char_flushes_when_full (s : Stdout) (c : Nat) :
    PRINT_BUFFER_SIZE = 16384 ∧
    (s.print_buffered = 16384 →
      (print_char s c).written = s.written ++ [s.buffered] ∧
      s.buffered.length = 16384 ∧
      (print_char s c).buffered = [c] ∧ (print_char s c).print_buffered = 1) ∧
    (s.print_buffered < 16384 →
      (print_char s c).written = s.written ∧
      (print_char s c).buffered = s.buffered ++ [c] ∧
      (print_char s c).print_buffered = s.print_buffered + 1) := by
  have hsize : PRINT_BUFFER_SIZE = 16384 := by decide
  refine ⟨hsize, ?_, ?_⟩
  · intro h
    obtain ⟨h1, h2, h3⟩ := print_char_full s c (by rw [hsize]; exact h)
    exact ⟨h1, by rw [buffered_length, h], h2, h3⟩
  · intro h
    exact print_char_not_full s c (by rw [hsize]; omega)

/-- Witness of C12: the full state `Stdout.full` and the initial state. -/
theorem print_char_flushes_when_full_witness :
    (Stdout.full.print_buffered = 16384 ∧
      (print_char Stdout.full 66).written = Stdout.full.written ++ [Stdout.full.buffered] ∧
      (print_char Stdout.full 66).buffered = [66]) ∧
    (Stdout.initial.print_buffered < 16384 ∧
      (print_char Stdout.initial 66).buffered = Stdout.initial.buffered ++ [66]) :=
  ⟨⟨rfl, ((print_char_flushes_when_full Stdout.full 66).2.1 rfl).1,
      ((print_char_flushes_when_full Stdout.full 66).2.1 rfl).2.2.1⟩,
   ⟨by decide, ((print_char_flushes_when_full Stdout.initial 66).2.2 (by decide)).2.1⟩⟩

theorem flush_inv (s : Stdout) : (flush s).print_buffered ≤ PRINT_BUFFER_SIZE := by
  rw [flush_print_buffered]
  exact Nat.zero_le _

theorem print_char_index_lt (s : Stdout) (h : s.print_buffered ≤ PRINT_BUFFER_SIZE) :
    print_char_index s < PRINT_BUFFER_SIZE := by
  unfold print_char_index
  by_cases hf : s.print_buffered = PRINT_BUFFER_SIZE
  · rw [if_pos hf, flush_print_buffered]
    decide
  · rw [if_neg hf]
    omega

theorem print_char_print_buffered (s : Stdout) (c : Nat) :
    (print_char s c).print_buffered = print_char_index s + 1 := by
  unfold print_char print_char_index
  split <;> rfl

theorem print_char_inv (s : Stdout) (c : Nat) (h : s.print_buffered ≤ PRINT_BUFFER_SIZE) :
    (print_char s c).print_buffered ≤ PRINT_BUFFER_SIZE := by
  rw [print_char_print_buffered]
  exact print_char_index_lt s h

theorem print_string_inv (str : List Nat) (s : Stdout)
    (h : s.print_buffered ≤ PRINT_BUFFER_SIZE) :
    (print_string s str).print_buffered ≤ PRINT_BUFFER_SIZE := by
  unfold print_string
  induction str generalizing s with
  | nil => exact h
  | cons c cs ih =>
    rw [List.foldl_cons]
    exact ih _ (print_char_inv s c h)

theorem print_int_inv (s : Stdout) (n : Int) (h : s.print_buffered ≤ PRINT_BUFFER_SIZE) :
    (print_int s n).print_buffered ≤ PRINT_BUFFER_SIZE := by
  rw [print_int_eq]
  exact print_string_inv _ s h

theorem run_calls_inv (calls : List BufferCall) (s : Stdout)
    (h : s.print_buffered ≤ PRINT_BUFFER_SIZE) :
    (run_calls s calls).print_buffered ≤ PRINT_BUFFER_SIZE := by
  unfold run_calls
  induction calls generalizing s with
  | nil => exact h
  | cons call calls ih =>
    rw [List.foldl_cons]
    apply ih
    cases call with
    | print_char c => exact print_char_inv s c h
    | flush => exact flush_inv s

theorem render_returns (tiles : Grid) (player_position : Int × Int) (rows columns : Nat)
    (s : Stdout) :
    ∃ s1, render tiles player_position rows columns s = some s1 ∧ s1.print_buffered = 0 := by
  obtain ⟨s1, h1, _⟩ := render_cells_stream tiles player_position rows columns
    (cursor_to_top_left (print_string s [0x1B, 91, 50, 74]))
  refine ⟨flush s1, ?_, flush_print_buffered s1⟩
  simp only [render]
  rw [h1]
  rfl

/-- C13: `print_buffered <= 16384` holds in the initial state and, from a
state where it holds, after `flush`, `print_char`, `print_string`,
`print_int`, `render` (which returns) and any sequence of `print_char` and
`flush` calls; hence the store in `print_char` is at an index strictly below
16384, in the given state and in every state such a sequence reaches. -/
theorem print_buffered_invariant (s : Stdout) (c : Nat) (str : List Nat) (n : Int)
    (tiles : Grid) (player_position : Int × Int) (rows columns : Nat)
    (calls : List BufferCall) (h : s.print_buffered ≤ 16384) :
    PRINT_BUFFER_SIZE = 16384 ∧
    Stdout.initial.print_buffered ≤ 16384 ∧
    (flush s).print_buffered ≤ 16384 ∧
    (print_char s c).print_buffered ≤ 16384 ∧
    (print_string s str).print_buffered ≤ 16384 ∧
    (print_int s n).print_buffered ≤ 16384 ∧
    (∃ s1, render tiles player_position rows columns s = some s1 ∧
      s1.print_buffered ≤ 16384) ∧
    (run_calls s calls).print_buffered ≤ 16384 ∧
    print_char_index s < 16384 ∧
    print_char_index (run_calls s calls) < 16384 := by
  have hsize : PRINT_BUFFER_SIZE = 16384 := by decide
  rw [← hsize] at h ⊢
  refine ⟨rfl, by decide, flush_inv s, print_char_inv s c h, print_string_inv str s h,
    print_int_inv s n h, ?_, run_calls_inv calls s h, print_char_index_lt s h,
    print_char_index_lt _ (run_calls_inv calls s h)⟩
  obtain ⟨s1, h1, h2⟩ := render_returns tiles player_position rows columns s
  exact ⟨s1, h1, by rw [h2]; exact Nat.zero_le _⟩

/-- Witness of C13: the initial state. -/
theorem print_buffered_invariant_witness :
    Stdout.initial.print_buffered ≤ 16384 ∧
    (print_char Stdout.initial 65).print_buffered ≤ 16384 ∧
    print_char_index Stdout.initial < 16384 :=
  ⟨by decide,
   (print_buffered_invariant Stdout.initial 65 [] 0 (fun _ _ => Tile.EMPTY) (0, 0) 0 0 []
     (by decide)).2.2.2.1,
   (print_buffered_invariant Stdout.initial 65 [] 0 (fun _ _ => Tile.EMPTY) (0, 0) 0 0 []
     (by decide)).2.2.2.2.2.2.2.2.1⟩

/-! ## Session termination -/

/-- C14, amended: when the key `q` ends the session after the start-up of
`main`, `disable_raw_mode` being registered first and `show_cursor` second,
the actions of the process are: raw mode set, cursor hidden, then at exit the
cursor shown, then the terminal mode restored, then the process ended with
status 0. -/
theorem quit_actions (player_position : Int × Int) :
    (main_handle_input (main_startup Process.initial) 113 player_position).actions =
      [Action.set_raw_mode,
       Action.write_stdout [0x1B, 91, 63, 50, 53, 108],
       Action.write_stdout [0x1B, 91, 63, 50, 53, 104],
       Action.restore_mode,
       Action.process_exit 0] ∧
    (main_startup Process.initial).handlers =
      [ExitHandler.disable_raw_mode, ExitHandler.show_cursor] := by
  constructor
  · simp [main_handle_input, handle_input, exit, main_startup, atexit, hide_cursor,
      enable_raw_mode, Process.initial, ExitHandler.run, disable_raw_mode, show_cursor,
      EXIT_SUCCESS]
  · rfl

/-- C14 as stated fails: at the quit key the cursor is shown (position 2 of
the actions) before the terminal mode is restored (position 3), not after;
the process ends last (position 4). -/
theorem quit_restores_cursor_first :
    (main_handle_input (main_startup Process.initial) 113 (0, 0)).actions.indexOf
        (Action.write_stdout [0x1B, 91, 63, 50, 53, 104]) = 2 ∧
    (main_handle_input (main_startup Process.initial) 113 (0, 0)).actions.indexOf
        Action.restore_mode = 3 ∧
    (main_handle_input (main_startup Process.initial) 113 (0, 0)).actions.indexOf
        (Action.process_exit 0) = 4 ∧
    ¬ ((main_handle_input (main_startup Process.initial) 113 (0, 0)).actions.indexOf
          Action.restore_mode <
        (main_handle_input (main_startup Process.initial) 113 (0, 0)).actions.indexOf
          (Action.write_stdout [0x1B, 91, 63, 50, 53, 104])) := by
  decide

/-! ## Direction of the viewport -/

theorem cell_color_of_x_outside (tiles : Grid) (position : Int × Int)
    (h : position.1 < 0 ∨ 100 ≤ position.1) : cell_color tiles position = some 40 := by
  rw [cell_color_eq]
  unfold cell_tile
  rw [if_neg]
  · rfl
  · simp only [TILES_WIDTH, TILES_HEIGHT]
    push_cast
    omega

theorem cell_color_of_y_outside (tiles : Grid) (position : Int × Int)
    (h : position.2 < 0 ∨ 100 ≤ position.2) : cell_color tiles position = some 40 := by
  rw [cell_color_eq]
  unfold cell_tile
  rw [if_neg]
  · rfl
  · simp only [TILES_WIDTH, TILES_HEIGHT]
    push_cast
    omega

/-- C15: for an offset `(px, py)` of two C `int` values, the key `d` turns it
into `(px + 1, py)` if `px < INT_MAX` and the key `w` into `(px, py + 1)` if
`py < INT_MAX`.  For every offset, the colour selected at `(row, column)` with
offset `(px + 1, py)` is the colour selected at `(row, column + 1)` with
offset `(px, py)`, and the colour at `(row, column)` with offset
`(px, py + 1)` is the colour at `(row - 1, column)` with offset `(px, py)`,
for `row >= 1` (put the other way: at `(row + 1, column)` and at
`(row, column)`).  On a terminal of at most 65535 rows and columns the same
holds for the offset that the key really leaves behind, `INT_MAX` included:
after `d` the colour at `(row, column)` is the colour that was at
`(row, column + 1)`, and after `w` the colour at `(row, column)` is the
colour that was at `(row - 1, column)`. -/
theorem viewport_direction (tiles : Grid) (px py : Int) (rows columns row column : Nat) :
    (-2147483648 ≤ px ∧ px < 2147483647 →
      handle_input 100 (px, py) = .running (px + 1, py)) ∧
    (-2147483648 ≤ py ∧ py < 2147483647 →
      handle_input 119 (px, py) = .running (px, py + 1)) ∧
    cell_color tiles (cell_position (px + 1, py) rows columns row column) =
      cell_color tiles (cell_position (px, py) rows columns row (column + 1)) ∧
    cell_color tiles (cell_position (px, py + 1) rows columns (row + 1) column) =
      cell_color tiles (cell_position (px, py) rows columns row column) ∧
    (1 ≤ row →
      cell_color tiles (cell_position (px, py + 1) rows columns row column) =
        cell_color tiles (cell_position (px, py) rows columns (row - 1) column)) ∧
    (-2147483648 ≤ px ∧ px ≤ 2147483647 → columns ≤ 65535 → column < columns →
      ∃ p, handle_input 100 (px, py) = .running p ∧
        cell_color tiles (cell_position p rows columns row column) =
          cell_color tiles (cell_position (px, py) rows columns row (column + 1))) ∧
    (-2147483648 ≤ py ∧ py ≤ 2147483647 → rows ≤ 65535 → row < rows → 1 ≤ row →
      ∃ p, handle_input 119 (px, py) = .running p ∧
        cell_color tiles (cell_position p rows columns row column) =
          cell_color tiles (cell_position (px, py) rows columns (row - 1) column)) := by
  have e1 : cell_position (px + 1, py) rows columns row column =
      cell_position (px, py) rows columns row (column + 1) := by
    simp only [cell_position, Prod.mk.injEq]
    constructor
    · push_cast; ring
    · trivial
  have e2 : ∀ row : Nat, cell_position (px, py + 1) rows columns (row + 1) column =
      cell_position (px, py) rows columns row column := by
    intro row
    simp only [cell_position, Prod.mk.injEq]
    constructor
    · trivial
    · push_cast; ring
  have e3 : 1 ≤ row →
      cell_color tiles (cell_position (px, py + 1) rows columns row column) =
        cell_color tiles (cell_position (px, py) rows columns (row - 1) column) := by
    intro h
    obtain ⟨r, hr⟩ : ∃ r, row = r + 1 := ⟨row - 1, by omega⟩
    rw [hr, Nat.add_sub_cancel, e2]
  have hd : handle_input 100 (px, py) = .running (wrap_int (px + 1), py) := by
    simp [handle_input]
  have hw : handle_input 119 (px, py) = .running (px, wrap_int (py + 1)) := by
    simp [handle_input]
  refine ⟨?_, ?_, by rw [e1], by rw [e2], e3, ?_, ?_⟩
  · intro h
    rw [hd, wrap_int_of_range (px + 1) (by omega) (by omega)]
  · intro h
    rw [hw, wrap_int_of_range (py + 1) (by omega) (by omega)]
  · intro h hcs hc
    refine ⟨_, hd, ?_⟩
    by_cases hm : px < 2147483647
    · rw [wrap_int_of_range (px + 1) (by omega) (by omega), e1]
    · have hpx : px = 2147483647 := by omega
      subst hpx
      have hwrap : wrap_int (2147483647 + 1) = -2147483648 := by decide
      rw [hwrap, cell_color_of_x_outside, cell_color_of_x_outside]
      · right
        simp only [cell_position, TILES_HEIGHT]
        push_cast
        omega
      · left
        simp only [cell_position, TILES_HEIGHT]
        push_cast
        omega
  · intro h hrs hr h1
    refine ⟨_, hw, ?_⟩
    by_cases hm : py < 2147483647
    · rw [wrap_int_of_range (py + 1) (by omega) (by omega)]
      exact e3 h1
    · have hpy : py = 2147483647 := by omega
      subst hpy
      have hwrap : wrap_int (2147483647 + 1) = -2147483648 := by decide
      rw [hwrap, cell_color_of_y_outside, cell_color_of_y_outside]
      · left
        simp only [cell_position, TILES_WIDTH]
        push_cast
        omega
      · right
        simp only [cell_position, TILES_WIDTH]
        push_cast
        omega

/-- Witness of C15: the centre cell of an 80 x 24 terminal at offset (0, 0),
and the same cell at offset `(INT_MAX, INT_MAX)`. -/
theorem viewport_direction_witness :
    (((-2147483648 : Int) ≤ 0 ∧ (0 : Int) < 2147483647) ∧
      handle_input 100 (0, 0) = .running (0 + 1, 0)) ∧
    (((-2147483648 : Int) ≤ 0 ∧ (0 : Int) < 2147483647) ∧
      handle_input 119 (0, 0) = .running (0, 0 + 1)) ∧
    (1 ≤ 12 ∧
      cell_color (fun _ _ => Tile.GRASS) (cell_position (0, 0 + 1) 24 80 12 40) =
        cell_color (fun _ _ => Tile.GRASS) (cell_position (0, 0) 24 80 (12 - 1) 40)) ∧
    ((((-2147483648 : Int) ≤ 2147483647 ∧ (2147483647 : Int) ≤ 2147483647) ∧
        80 ≤ 65535 ∧ 40 < 80) ∧
      ∃ p, handle_input 100 (2147483647, 2147483647) = .running p ∧
        cell_color (fun _ _ => Tile.GRASS) (cell_position p 24 80 12 40) =
          cell_color (fun _ _ => Tile.GRASS)
            (cell_position (2147483647, 2147483647) 24 80 12 (40 + 1))) ∧
    ((((-2147483648 : Int) ≤ 2147483647 ∧ (2147483647 : Int) ≤ 2147483647) ∧
        24 ≤ 65535 ∧ 12 < 24 ∧ 1 ≤ 12) ∧
      ∃ p, handle_input 119 (2147483647, 2147483647) = .running p ∧
        cell_color (fun _ _ => Tile.GRASS) (cell_position p 24 80 12 40) =
          cell_color (fun _ _ => Tile.GRASS)
            (cell_position (2147483647, 2147483647) 24 80 (12 - 1) 40)) :=
  ⟨⟨by decide, (viewport_direction (fun _ _ => Tile.GRASS) 0 0 24 80 12 40).1 (by decide)⟩,
   ⟨by decide,
    (viewport_direction (fun _ _ => Tile.GRASS) 0 0 24 80 12 40).2.1 (by decide)⟩,
   ⟨by decide,
    (viewport_direction (fun _ _ => Tile.GRASS) 0 0 24 80 12 40).2.2.2.2.1 (by decide)⟩,
   ⟨by decide,
    (viewport_direction (fun _ _ => Tile.GRASS) 2147483647 2147483647 24 80 12 40).2.2.2.2.2.1
      (by decide) (by decide) (by decide)⟩,
   ⟨by decide,
    (viewport_direction (fun _ _ => Tile.GRASS) 2147483647 2147483647 24 80 12 40).2.2.2.2.2.2
      (by decide) (by decide) (by decide) (by decide)⟩⟩

/-! ## Number of writes -/

theorem print_string_chunks (str : List Nat) :
    ∀ s : Stdout, s.print_buffered ≤ 16384 →
      ∃ chunks, (print_string s str).written = s.written ++ chunks ∧
        (∀ chunk ∈ chunks, chunk.length = 16384) ∧
        (print_string s str).print_buffered ≤ 16384 ∧
        s.print_buffered + str.length =
          chunks.length * 16384 + (print_string s str).print_buffered ∧
        (str ≠ [] → 0 < (print_string s str).print_buffered) := by
  have hsize : PRINT_BUFFER_SIZE = 16384 := by decide
  induction str with
  | nil =>
    intro s h
    exact ⟨[], by simp [print_string], by simp, h, by simp [print_string], by simp⟩
  | cons c cs ih =>
    intro s h
    have hstep : print_string s (c :: cs) = print_string (print_char s c) cs := rfl
    rw [hstep]
    by_cases hf : s.print_buffered = PRINT_BUFFER_SIZE
    · have hw : (print_char s c).written = s.written ++ [s.buffered] ∧
          (print_char s c).print_buffered = 1 := by
        have hpos : s.print_buffered > 0 := by rw [hf]; decide
        have hfl : flush s = { write s s.buffered with print_buffered := 0 } := by
          unfold flush
          rw [if_pos hpos]
        unfold print_char
        simp only [hf, if_true]
        rw [hfl]
        exact ⟨rfl, rfl⟩
      obtain ⟨chunks, h1, h2, h3, h4, h5⟩ := ih (print_char s c) (by rw [hw.2]; decide)
      refine ⟨s.buffered :: chunks, ?_, ?_, h3, ?_, ?_⟩
      · rw [h1, hw.1]; simp
      · intro chunk hc
        rcases List.mem_cons.mp hc with rfl | hc
        · rw [buffered_length, hf, hsize]
        · exact h2 chunk hc
      · rw [hw.2] at h4
        rw [hsize] at hf
        simp only [List.length_cons] at h4 ⊢
        omega
      · intro _
        by_cases hcs : cs = []
        · subst hcs
          show 0 < (print_char s c).print_buffered
          rw [hw.2]; decide
        · exact h5 hcs
    · have hw : (print_char s c).written = s.written ∧
          (print_char s c).print_buffered = s.print_buffered + 1 := by
        unfold print_char
        rw [if_neg hf]
        exact ⟨rfl, rfl⟩
      rw [hsize] at hf
      obtain ⟨chunks, h1, h2, h3, h4, h5⟩ := ih (print_char s c) (by rw [hw.2]; omega)
      refine ⟨chunks, ?_, h2, h3, ?_, ?_⟩
      · rw [h1, hw.1]
      · rw [hw.2] at h4
        simp only [List.length_cons] at h4 ⊢
        omega
      · intro _
        by_cases hcs : cs = []
        · subst hcs
          show 0 < (print_char s c).print_buffered
          rw [hw.2]; omega
        · exact h5 hcs

/-- C16: from an empty buffer, `n` calls of `print_char` (the bytes of `str`,
in order) followed by one `flush` issue exactly `ceil (n / 16384)` writes;
none is empty or longer than 16384 bytes, all but the last carry exactly 16384
bytes, together they carry `str`, and for `1 <= n <= 16384` there is a single
write, carrying `str`. -/
theorem print_writes_minimal (s : Stdout) (str : List Nat) (h : s.print_buffered = 0) :
    ∃ chunks, (flush (print_string s str)).written = s.written ++ chunks ∧
      chunks.length = (str.length + 16383) / 16384 ∧
      (∀ chunk ∈ chunks, 0 < chunk.length ∧ chunk.length ≤ 16384) ∧
      (∀ chunk ∈ chunks.dropLast, chunk.length = 16384) ∧
      chunks.flatten = str ∧
      (1 ≤ str.length → str.length ≤ 16384 → chunks = [str]) := by
  obtain ⟨chunks, h1, h2, h3, h4, h5⟩ := print_string_chunks str s (by omega)
  have key : ∃ all, (flush (print_string s str)).written = s.written ++ all ∧
      all.length = (str.length + 16383) / 16384 ∧
      (∀ chunk ∈ all, 0 < chunk.length ∧ chunk.length ≤ 16384) ∧
      (∀ chunk ∈ all.dropLast, chunk.length = 16384) := by
    by_cases hn : str = []
    · subst hn
      refine ⟨[], ?_, by simp, by simp, by simp⟩
      simp [print_string, flush, h]
    · have hpos := h5 hn
      refine ⟨chunks ++ [(print_string s str).buffered], ?_, ?_, ?_, ?_⟩
      · unfold flush
        rw [if_pos hpos]
        show (print_string s str).written ++ [(print_string s str).buffered] = _
        rw [h1, List.append_assoc]
      · rw [h] at h4
        simp only [List.length_append, List.length_singleton]
        omega
      · intro chunk hc
        rcases List.mem_append.mp hc with hc | hc
        · rw [h2 chunk hc]; decide
        · rw [List.mem_singleton.mp hc, buffered_length]
          exact ⟨hpos, h3⟩
      · intro chunk hc
        rw [List.dropLast_concat] at hc
        exact h2 chunk hc
  obtain ⟨all, a1, a2, a3, a4⟩ := key
  have hflat : all.flatten = str := by
    have hd : (flush (print_string s str)).delivered = s.delivered ++ str := by
      rw [flush_delivered, print_string_stream]
      simp [Stdout.stream, Stdout.buffered, h]
    simp only [Stdout.delivered, a1, List.flatten_append] at hd
    exact List.append_cancel_left hd
  refine ⟨all, a1, a2, a3, a4, hflat, ?_⟩
  intro hl hu
  have hone : all.length = 1 := by rw [a2]; omega
  match all, hone, hflat with
  | [x], _, hx => simp at hx; rw [hx]

/-- Witness of C16: three bytes from the initial state. -/
theorem print_writes_minimal_witness :
    Stdout.initial.print_buffered = 0 ∧
    ∃ chunks, (flush (print_string Stdout.initial [65, 66, 67])).written =
        Stdout.initial.written ++ chunks ∧
      chunks.length = ([65, 66, 67].length + 16383) / 16384 ∧
      (∀ chunk ∈ chunks, 0 < chunk.length ∧ chunk.length ≤ 16384) ∧
      (∀ chunk ∈ chunks.dropLast, chunk.length = 16384) ∧
      chunks.flatten = [65, 66, 67] ∧
      (1 ≤ [65, 66, 67].length → [65, 66, 67].length ≤ 16384 → chunks = [[65, 66, 67]]) :=
  ⟨rfl, print_writes_minimal Stdout.initial [65, 66, 67] rfl⟩

/-! ## The river band -/

/-- C17: for world coordinates `i, j < 100`, a tile with `|i - j| >= 10` is
`GRASS` after `build_map`, a `WATER` tile has `|i - j| < 10`, and no tile is
`EMPTY`. -/
theorem build_map_river_band (tiles : Grid) (i j : Nat) (hi : i < 100) (hj : j < 100) :
    (10 ≤ |(i : Int) - (j : Int)| → build_map Real.sin tiles i j = Tile.GRASS) ∧
    (build_map Real.sin tiles i j = Tile.WATER → |(i : Int) - (j : Int)| < 10) ∧
    build_map Real.sin tiles i j ≠ Tile.EMPTY := by
  have hb : i < TILES_HEIGHT ∧ j < TILES_WIDTH := ⟨hi, hj⟩
  have hg : 10 ≤ |(i : Int) - (j : Int)| → build_map Real.sin tiles i j = Tile.GRASS := by
    intro h
    rw [build_map_apply, if_pos hb, if_neg]
    have hs := Real.abs_sin_le_one (((i + j) / 5 : Nat) : ℝ)
    have hd : (10 : ℝ) ≤ |(((i : Int) - (j : Int) : Int) : ℝ)| := by
      have : ((10 : Int) : ℝ) ≤ ((|(i : Int) - (j : Int)| : Int) : ℝ) := by exact_mod_cast h
      simpa using this
    intro hlt
    have h1 := abs_sub_abs_le_abs_sub (((i : Int) - (j : Int) : Int) : ℝ)
      (-(Real.sin (((i + j) / 5 : Nat) : ℝ) * 5))
    rw [sub_neg_eq_add, abs_neg, abs_mul] at h1
    have h5 : |(5 : ℝ)| = 5 := abs_of_pos (by norm_num)
    rw [h5] at h1
    nlinarith
  refine ⟨hg, ?_, ?_⟩
  · intro hw
    by_contra hn
    rw [hg (by omega)] at hw
    exact absurd hw (by decide)
  · rw [build_map_apply, if_pos hb]
    split <;> decide

/-- Witness of C17: the tile at `(30, 10)`. -/
theorem build_map_river_band_witness :
    (30 < 100 ∧ 10 < 100 ∧ 10 ≤ |((30 : Nat) : Int) - ((10 : Nat) : Int)|) ∧
    build_map Real.sin (fun _ _ => Tile.EMPTY) 30 10 = Tile.GRASS :=
  ⟨⟨by decide, by decide, by decide⟩,
   (build_map_river_band (fun _ _ => Tile.EMPTY) 30 10 (by decide) (by decide)).1
     (by decide)⟩

/-! ## Index safety of the grid lookup -/

/-- C18: whenever the two guards of `render` hold for the computed world
coordinate, both indices of the read `tiles[position[1]][position[0]]` are in
`[0, 100)`, the bounds-checked read returns a tile, and that tile indexes
`tile_colors` within its 3 entries; so the colour computation never meets an
out-of-bounds read, for any coordinate, and `render_cell` and `render`
return. -/
theorem render_reads_in_bounds (tiles : Grid) (player_position : Int × Int)
    (rows columns row column : Nat) (s : Stdout) (position : Int × Int) :
    tile_colors.length = 3 ∧
    (0 ≤ position.1 ∧ position.1 < (TILES_WIDTH : Int) →
      0 ≤ position.2 ∧ position.2 < (TILES_HEIGHT : Int) →
      (0 ≤ position.2 ∧ position.2 < 100 ∧ 0 ≤ position.1 ∧ position.1 < 100) ∧
      ∃ tile, tiles_read tiles position.2 position.1 = some tile ∧
        tile.toNat < tile_colors.length ∧
        ∃ color, tile_colors[tile.toNat]? = some color) ∧
    (∃ color, cell_color tiles position = some color) ∧
    (∃ color, cell_color tiles
      (cell_position player_position rows columns row column) = some color) ∧
    (∃ s1, render_cell tiles player_position rows columns (-1) row column s = some s1) ∧
    (∃ s1, render tiles player_position rows columns s = some s1) := by
  refine ⟨rfl, ?_, ⟨_, cell_color_eq tiles position⟩, ⟨_, cell_color_eq tiles _⟩, ?_, ?_⟩
  · intro h1 h2
    have hb : 0 ≤ position.2 ∧ position.2 < (TILES_HEIGHT : Int) ∧
        0 ≤ position.1 ∧ position.1 < (TILES_WIDTH : Int) := ⟨h2.1, h2.2, h1.1, h1.2⟩
    refine ⟨hb, tiles position.2.toNat position.1.toNat, ?_, ?_, ?_⟩
    · unfold tiles_read
      rw [if_pos hb]
    · cases tiles position.2.toNat position.1.toNat <;> decide
    · exact ⟨_, tile_colors_read _⟩
  · obtain ⟨s1, h1, _⟩ := render_cell_stream tiles player_position rows columns row column s
    exact ⟨s1, h1⟩
  · obtain ⟨s1, h1, _⟩ := render_cells_stream tiles player_position rows columns
      (cursor_to_top_left (print_string s [0x1B, 91, 50, 74]))
    refine ⟨flush s1, ?_⟩
    simp only [render]
    rw [h1]
    rfl

/-- Witness of C18: the world coordinate (50, 50) over an all-water grid. -/
theorem render_reads_in_bounds_witness :
    ((0 ≤ ((50 : Int), (50 : Int)).1 ∧ ((50 : Int), (50 : Int)).1 < (TILES_WIDTH : Int)) ∧
      (0 ≤ ((50 : Int), (50 : Int)).2 ∧ ((50 : Int), (50 : Int)).2 < (TILES_HEIGHT : Int))) ∧
    ∃ tile, tiles_read (fun _ _ => Tile.WATER) ((50 : Int), (50 : Int)).2
        ((50 : Int), (50 : Int)).1 = some tile ∧
      tile.toNat < tile_colors.length ∧
      ∃ color, tile_colors[tile.toNat]? = some color :=
  ⟨⟨by decide, by decide⟩,
   ((render_reads_in_bounds (fun _ _ => Tile.WATER) (0, 0) 24 80 12 40 Stdout.initial
      (50, 50)).2.1 (by decide) (by decide)).2⟩

/-! ## The diagonal -/

/-- C19: for every `i < 100` the term `sin ((i + i) / 5) * 5`, with the
integer quotient, has absolute value below 5 and `build_map` stores `WATER` at
`tiles[i][i]`; at offset (0, 0) the centre cell of any terminal lies at world
(50, 50), carries the glyph `P` and is coloured 46. -/
theorem build_map_diagonal_water (tiles : Grid) (i rows columns : Nat) :
    (i < 100 →
      |Real.sin (((i + i) / 5 : Nat) : ℝ) * 5| < 5 ∧
      build_map Real.sin tiles i i = Tile.WATER) ∧
    cell_position (0, 0) rows columns (rows / 2) (columns / 2) = (50, 50) ∧
    cell_glyph rows columns (rows / 2) (columns / 2) = 80 ∧
    cell_color (build_map Real.sin tiles)
      (cell_position (0, 0) rows columns (rows / 2) (columns / 2)) = some 46 := by
  have hp : cell_position (0, 0) rows columns (rows / 2) (columns / 2) = (50, 50) := by
    simp [cell_position, TILES_HEIGHT, TILES_WIDTH]
  refine ⟨?_, hp, by simp [cell_glyph], ?_⟩
  · intro hi
    have hs := abs_sin_natCast_lt_one ((i + i) / 5)
    have h5 : |Real.sin (((i + i) / 5 : Nat) : ℝ) * 5| < 5 := by
      rw [abs_mul, abs_of_pos (by norm_num : (0 : ℝ) < 5)]
      linarith
    refine ⟨h5, ?_⟩
    rw [build_map_apply]
    have hb : i < TILES_HEIGHT ∧ i < TILES_WIDTH := ⟨hi, hi⟩
    rw [if_pos hb, if_pos]
    simpa using h5
  · rw [hp, cell_color_eq, cell_tile_centre]
    rfl

/-- Witness of C19: the tile at `(73, 73)`. -/
theorem build_map_diagonal_water_witness :
    73 < 100 ∧ build_map Real.sin (fun _ _ => Tile.EMPTY) 73 73 = Tile.WATER :=
  ⟨by decide, ((build_map_diagonal_water (fun _ _ => Tile.EMPTY) 73 24 80).1 (by decide)).2⟩

/-! ## Decimal output -/

theorem print_int_loop_frame (storage : Int → Nat) (start n : Int) :
    (print_int_loop storage start n).2 < start ∧
      ∀ i, i ≤ (print_int_loop storage start n).2 →
        (print_int_loop storage start n).1 i = storage i := by
  induction storage, start, n using print_int_loop.induct with
  | case1 storage start n storage1 h ih =>
    simp only [storage1] at ih
    rw [print_int_loop]
    simp only [h, if_true]
    refine ⟨by omega, ?_⟩
    intro i hi
    rw [ih.2 i hi]
    have : i ≠ start := by omega
    simp [Function.update, this]
  | case2 storage start n h =>
    rw [print_int_loop]
    simp only [h, if_false]
    refine ⟨by omega, ?_⟩
    intro i hi
    have : i ≠ start := by omega
    simp [Function.update, this]

theorem print_int_bytes_eq (n : Int) :
    print_int_bytes n =
      (List.range ((32 : Int) - (print_int_loop (fun _ => 0) 31 n).2).toNat).map
        (fun j : Nat => (print_int_loop (fun _ => 0) 31 n).1
          ((print_int_loop (fun _ => 0) 31 n).2 + (j : Int))) := by
  unfold print_int_bytes
  simp only []
  generalize (List.range ((32 : Int) - (print_int_loop (fun _ => 0) 31 n).2).toNat) = l
  induction l with
  | nil => rfl
  | cons x xs ih =>
    rw [List.map_cons, ← ih]
    rfl

theorem print_int_bytes_head (n : Int) : ∃ rest, print_int_bytes n = 0 :: rest := by
  obtain ⟨h1, h2⟩ := print_int_loop_frame (fun _ => 0) 31 n
  obtain ⟨m, hm⟩ : ∃ m, ((32 : Int) - (print_int_loop (fun _ => 0) 31 n).2).toNat = m + 1 :=
    ⟨((32 : Int) - (print_int_loop (fun _ => 0) 31 n).2).toNat - 1, by omega⟩
  rw [print_int_bytes_eq, hm, List.range_succ_eq_map, List.map_cons]
  have h0 : (print_int_loop (fun _ => 0) 31 n).1
      ((print_int_loop (fun _ => 0) 31 n).2 + ((0 : Nat) : Int)) = 0 := by
    simpa using h2 _ (le_refl _)
  rw [h0]
  exact ⟨_, rfl⟩

theorem print_int_loop_start (d : Nat) :
    ∀ (storage : Int → Nat) (start n : Int), 0 ≤ n → n < 10 ^ (d + 1) →
      start - ((d : Int) + 1) ≤ (print_int_loop storage start n).2 := by
  induction d with
  | zero =>
    intro storage start n h0 h1
    have e : n.tdiv 10 = 0 := by
      rw [Int.tdiv_eq_ediv h0 (by decide)]
      omega
    rw [print_int_loop]
    simp [e]
  | succ d ih =>
    intro storage start n h0 h1
    have e : n.tdiv 10 = n / 10 := Int.tdiv_eq_ediv h0 (by decide)
    rw [print_int_loop]
    by_cases hq : 0 < n.tdiv 10
    · simp only [hq, if_true]
      have hb : n.tdiv 10 < 10 ^ (d + 1) := by
        rw [e]
        have : (10 : Int) ^ (d + 1 + 1) = 10 ^ (d + 1) * 10 := by ring
        rw [this] at h1
        omega
      have := ih (Function.update storage start (n.tmod 10 + 48).toNat) (start - 1)
        (n.tdiv 10) (by omega) hb
      push_cast
      omega
    · simp only [hq, if_false]
      push_cast
      omega

theorem print_int_bytes_one (d : Nat) (h : d ≤ 9) :
    print_int_bytes ((d : Nat) : Int) = [0, d + 48] := by
  have e1 : ((d : Nat) : Int).tdiv 10 = 0 := by
    rw [Int.tdiv_eq_ediv (by omega) (by decide)]
    omega
  have e2 : ((d : Nat) : Int).tmod 10 = (d : Int) := by
    rw [Int.tmod_eq_emod (by omega) (by decide)]
    omega
  have t0 : ((d : Int) + 48).toNat = d + 48 := by omega
  have hl : print_int_loop (fun _ => 0) 31 ((d : Nat) : Int) =
      (Function.update (fun _ => 0) 31 (d + 48), 30) := by
    rw [print_int_loop]
    simp only [e1, e2, lt_irrefl, if_false, t0]
    norm_num
  rw [print_int_bytes_eq, hl]
  have : ((32 : Int) - 30).toNat = 2 := by decide
  simp only [this]
  simp [List.range_succ, Function.update]

/-- The indices `print_int` uses into `storage[32]` for a non-negative `int`:
it stores at `start + 1 .. 31` and reads at `start .. 31`, where `start`, the
value when the first loop exits, lies in `[21, 31)`. -/
theorem print_int_indices (n : Int) (h0 : 0 ≤ n) (h1 : n ≤ 2 ^ 31 - 1) :
    21 ≤ (print_int_loop (fun _ => 0) 31 n).2 ∧
      (print_int_loop (fun _ => 0) 31 n).2 < 31 := by
  refine ⟨?_, (print_int_loop_frame _ _ _).1⟩
  have := print_int_loop_start 9 (fun _ => 0) 31 n h0 (by norm_num; omega)
  omega

/-- C20, evaluated: `print_int(0)` appends the two bytes NUL, `0` and
`print_int(7)` the two bytes NUL, `7`, where the decimal representation is the
single digit; for every `n` the bytes `print_int(n)` appends begin with a NUL
byte, which no decimal representation does. -/
theorem print_int_leading_nul (n : Int) :
    print_int_bytes 0 = [0, 48] ∧
    print_int_bytes 7 = [0, 55] ∧
    (∃ rest, print_int_bytes n = 0 :: rest) ∧
    (∀ s, (print_int s n).printed = s.printed ++ print_int_bytes n) :=
  ⟨print_int_bytes_one 0 (by decide), print_int_bytes_one 7 (by decide),
    print_int_bytes_head n, fun s => print_int_printed s n⟩

end TerminalRiver
